import Mathlib

/-!
Verification model of the DTI Backtester trade core
(Backtest Engine, Trade Ledger, Analytics Engine, Parameter Optimizer).

Conventions of the shallow embedding:
* JavaScript numbers that stay finite are modelled as rationals.
  Where the code can produce `NaN` or `Infinity` (the profit factor,
  the Sharpe ratio, the optimizer score) we use the explicit type
  `JNum` below, whose arithmetic mirrors the IEEE special cases the
  code exercises.
* `Date` values are modelled as integers (milliseconds since epoch);
  `new Date()` becomes an explicit `now` parameter, and the JS
  `setMonth(getMonth() + 6)` calendar arithmetic of the warm-up rule
  is abstracted as an explicit `addSixMonths` function argument.
* The transcendental functions `Math.pow` and `Math.sqrt` used by the
  Sharpe-ratio computation are abstracted as explicit function
  arguments (`powQ`, `sqrtQ`); theorems only use properties that hold
  for the real functions, and concrete witnesses instantiate them with
  functions that agree with the real ones on the points evaluated.
* Arrays are lists; `arr[i]` on a possibly out-of-range index is
  `List.get?` (JS yields `undefined`, and every comparison with
  `undefined` is false, which the definitions reproduce case by case).
-/

/-- JS number with the IEEE special values the trade core can reach:
`nan`, signed infinities (`inf true` is plus infinity), or a finite
rational. -/
inductive JNum where
  | nan : JNum
  | inf : Bool → JNum
  | num : ℚ → JNum
deriving DecidableEq

namespace JNum

/-- IEEE multiplication restricted to the cases reachable here:
anything with `NaN` is `NaN`, infinity times zero is `NaN`, infinity
times a nonzero value is a signed infinity. -/
def mul : JNum → JNum → JNum
  | nan, _ => nan
  | _, nan => nan
  | inf s, inf t => inf (s == t)
  | inf s, num q => if q = 0 then nan else inf (s == decide (0 < q))
  | num q, inf s => if q = 0 then nan else inf (s == decide (0 < q))
  | num a, num b => num (a * b)

/-- IEEE division restricted to the cases reachable here: a nonzero
finite number divided by zero is a signed infinity, zero divided by
zero is `NaN`. -/
def div : JNum → JNum → JNum
  | nan, _ => nan
  | _, nan => nan
  | inf _, inf _ => nan
  | inf s, num _ => inf s
  | num _, inf _ => num 0
  | num a, num b =>
      if b = 0 then (if a = 0 then nan else inf (decide (0 < a))) else num (a / b)

/-- The JS `>` comparison: false whenever either side is `NaN`. -/
def jgt : JNum → JNum → Bool
  | nan, _ => false
  | _, nan => false
  | inf s, inf t => s && !t
  | inf s, num _ => s
  | num _, inf t => !t
  | num a, num b => decide (b < a)

/-- The JS `isNaN` test. -/
def isNan : JNum → Bool
  | nan => true
  | _ => false

end JNum

/-! ## Backtest Engine (`backtestWithActiveDetection`) -/

/-- One simulated trade as built by the Backtest Engine.  Exit fields
are `Option`s: they are absent (`none`) on the still-open trade. -/
structure SimTrade where
  entryDate : Int
  entryPrice : ℚ
  currentPrice : ℚ
  entryDTI : ℚ
  entry7DayDTI : Option ℚ
  currentPlPercent : ℚ
  holdingDays : Int
  signalDate : Int
  exitDate : Option Int := none
  exitPrice : Option ℚ := none
  plPercent : Option ℚ := none
  exitReason : Option String := none
deriving DecidableEq

/-- One weekly (7-day) period with its index range, from
`sevenDayDTIData.sevenDayData`. -/
structure Period where
  startIndex : Nat
  endIndex : Nat
deriving DecidableEq

/-- The input series of `backtestWithActiveDetection`: parallel arrays
of dates, close prices and daily DTI, plus the 7-day DTI data
(`daily7DayDTI`, `sevenDayData`, `sevenDayDTI`). -/
structure BTInput where
  dates : List Int
  prices : List ℚ
  dti : List ℚ
  daily7DayDTI : List ℚ
  sevenDayData : List Period
  sevenDayDTI : List ℚ
deriving DecidableEq

/-- The trading parameters read from the UI at the top of
`backtestWithActiveDetection`. -/
structure BTParams where
  entryThreshold : ℚ
  takeProfitPercent : ℚ
  stopLossPercent : ℚ
  maxHoldingDays : Int
  enable7DayDTI : Bool
deriving DecidableEq

/-- The loop state of the backtest pass: completed trades so far, the
at-most-one open trade, and the previous-trade-completed flag. -/
structure BTState where
  completedTrades : List SimTrade
  activeTrade : Option SimTrade
  previousTradeCompleted : Bool
deriving DecidableEq

/-- The result of `backtestWithActiveDetection`; `validationError`
records that the input-validation guard fired (the code logs
"Invalid inputs for backtesting" and returns empty results). -/
structure BTResult where
  completedTrades : List SimTrade
  activeTrade : Option SimTrade
  validationError : Bool
deriving DecidableEq

/-- Milliseconds per day, the divisor of every holding-day
computation in the code. -/
def msPerDay : Int := 86400000

/-- The linear scan that finds which 7-day period contains day `i`
(first `p` with `startIndex <= i <= endIndex`). -/
def findPeriodIdx (periods : List Period) (i : Nat) : Option Nat :=
  periods.findIdx? (fun p => decide (p.startIndex ≤ i ∧ i ≤ p.endIndex))

/-- The previous 7-day period's DTI as the code fetches it:
`none` models the JS `null` (no period contains `i`, or it is the
first period); `some none` models fetching an `undefined` entry of
`sevenDayDTI`; `some (some q)` is a real value. -/
def previous7DayDTI (inp : BTInput) (i : Nat) : Option (Option ℚ) :=
  match findPeriodIdx inp.sevenDayData i with
  | none => none
  | some p => if 1 ≤ p then some (inp.sevenDayDTI.get? (p - 1)) else none

/-- The 7-day entry condition: vacuously true while
`previous7DayDTI` is `null`; any `undefined` operand makes the JS
comparison false. -/
def sevenDayConditionMet (inp : BTInput) (params : BTParams) (i : Nat) : Bool :=
  if params.enable7DayDTI then
    match previous7DayDTI inp i with
    | none => true
    | some pv =>
        match inp.daily7DayDTI.get? i, pv with
        | some c, some p => decide (p < c)
        | _, _ => false
  else true

/-- Close the open trade at step date/price with the given reason, as
in the three exit branches of the backtest loop. -/
def btClose (t : SimTrade) (currentDate : Int) (currentPrice plPercent : ℚ)
    (reason : String) : SimTrade :=
  { t with exitDate := some currentDate, exitPrice := some currentPrice,
           plPercent := some plPercent, exitReason := some reason }

/-- One iteration `i` of the backtest loop of
`backtestWithActiveDetection` (exit evaluation when a trade is open,
entry evaluation otherwise). -/
def btStep (inp : BTInput) (params : BTParams) (earliest : Int)
    (s : BTState) (i : Nat) : BTState :=
  let currentDate := inp.dates.getD i 0
  let currentPrice := inp.prices.getD i 0
  let currentDTI := inp.dti.getD i 0
  let previousDTI := inp.dti.getD (i - 1) 0
  match s.activeTrade with
  | some t0 =>
      let holdingDays := (currentDate - t0.entryDate).fdiv msPerDay
      let plPercent := (currentPrice - t0.entryPrice) / t0.entryPrice * 100
      let t := { t0 with currentPrice := currentPrice,
                         currentPlPercent := plPercent,
                         holdingDays := holdingDays }
      if params.takeProfitPercent ≤ plPercent then
        { completedTrades :=
            s.completedTrades ++ [btClose t currentDate currentPrice plPercent "Take Profit"],
          activeTrade := none, previousTradeCompleted := true }
      else if plPercent ≤ -params.stopLossPercent then
        { completedTrades :=
            s.completedTrades ++ [btClose t currentDate currentPrice plPercent "Stop Loss"],
          activeTrade := none, previousTradeCompleted := true }
      else if params.maxHoldingDays ≤ holdingDays then
        { completedTrades :=
            s.completedTrades ++ [btClose t currentDate currentPrice plPercent "Time Exit"],
          activeTrade := none, previousTradeCompleted := true }
      else { s with activeTrade := some t }
  | none =>
      if currentDTI < params.entryThreshold ∧
         previousDTI < currentDTI ∧
         sevenDayConditionMet inp params i = true ∧
         (s.completedTrades = [] ∨ s.previousTradeCompleted = true) ∧
         earliest ≤ currentDate then
        { s with
            activeTrade := some
              { entryDate := currentDate, entryPrice := currentPrice,
                currentPrice := currentPrice, entryDTI := currentDTI,
                entry7DayDTI := inp.daily7DayDTI.get? i,
                currentPlPercent := 0, holdingDays := 0,
                signalDate := currentDate },
            previousTradeCompleted := false }
      else s

/-- The backtest loop: fold `btStep` over the indices `1 .. n-1`. -/
def btRun (inp : BTInput) (params : BTParams) (earliest : Int)
    (s : BTState) (idxs : List Nat) : BTState :=
  idxs.foldl (btStep inp params earliest) s

/-- `backtestWithActiveDetection`: validation guard, warm-up boundary
(`addSixMonths` abstracts the JS `setMonth(+6)` calendar arithmetic),
then the forward pass from `i = 1`. -/
def backtestWithActiveDetection (inp : BTInput) (params : BTParams)
    (addSixMonths : Int → Int) : BTResult :=
  if inp.dates.length ≠ inp.prices.length ∨ inp.dates.length ≠ inp.dti.length then
    { completedTrades := [], activeTrade := none, validationError := true }
  else
    let earliest := addSixMonths (inp.dates.getD 0 0)
    let final := btRun inp params earliest
      { completedTrades := [], activeTrade := none, previousTradeCompleted := false }
      (List.range' 1 (inp.dti.length - 1))
    { completedTrades := final.completedTrades, activeTrade := final.activeTrade,
      validationError := false }

/-! ## Trade Ledger (`TradeCore`) -/

/-- A real, persisted trade of the Trade Ledger.  The exit fields are
`Option`s (absent while the trade is active); every other JS field is
total. -/
structure LTrade where
  id : String
  status : String
  stockName : String
  symbol : String
  entryDate : Int
  entryPrice : ℚ
  currentPrice : ℚ
  investmentAmount : ℚ
  shares : ℚ
  currentValue : ℚ
  stopLossPrice : ℚ
  targetPrice : ℚ
  stopLossPercent : ℚ
  takeProfitPercent : ℚ
  squareOffDate : Int
  holdingDays : Int
  currentPLPercent : ℚ
  currentPLValue : ℚ
  currencySymbol : String
  notes : String
  exitDate : Option Int := none
  exitPrice : Option ℚ := none
  exitReason : Option String := none
  plPercent : Option ℚ := none
  plValue : Option ℚ := none
deriving DecidableEq

/-- `getCurrencySymbol`: market name or symbol suffix to currency
sign. -/
def getCurrencySymbol (market : String) : String :=
  if market = "usStocks" then "$"
  else if market = "ftse100" then "£"
  else if market = "nifty50" ∨ market = "niftyNext50" ∨ market = "indices" then "₹"
  else if market.contains '.' then
    if market.endsWith ".L" then "£"
    else "₹"
  else "$"

/-- The trade-field part of `closeTradeAutomatically` / `closeTrade`:
set status, exit fields and realized P/L. -/
def closeTradeFields (t : LTrade) (reason : String) (exitPrice : ℚ)
    (now : Int) : LTrade :=
  { t with status := "closed", exitDate := some now, exitPrice := some exitPrice,
           exitReason := some reason,
           plPercent := some ((exitPrice - t.entryPrice) / t.entryPrice * 100),
           plValue := some (t.shares * exitPrice - t.shares * t.entryPrice) }

/-- `updateTradeStatus`: recompute current P/L, value and holding
days from `currentPrice`, then evaluate the live exit conditions in
the code's order (stop loss, target, square-off date).  Returns the
updated trade record. -/
def updateTradeStatus (now : Int) (t : LTrade) : LTrade :=
  if t.status ≠ "active" then t
  else
    let currentPrice := t.currentPrice
    let t1 := { t with
      currentPLPercent := (currentPrice - t.entryPrice) / t.entryPrice * 100,
      currentPLValue := t.shares * currentPrice - t.shares * t.entryPrice,
      currentValue := t.shares * currentPrice,
      holdingDays := (now - t.entryDate).fdiv msPerDay }
    if currentPrice ≤ t1.stopLossPrice then
      closeTradeFields t1 "Stop Loss Hit" currentPrice now
    else if t1.targetPrice ≤ currentPrice then
      closeTradeFields t1 "Target Reached" currentPrice now
    else if t1.squareOffDate ≤ now then
      closeTradeFields t1 "Time Exit" currentPrice now
    else t1

/-- Input record of `addNewTrade` (the `tradeData` argument). -/
structure TradeData where
  stockName : String
  symbol : String
  entryDate : Int
  entryPrice : ℚ
  investmentAmount : ℚ
  stopLossPrice : ℚ
  targetPrice : ℚ
  stopLossPercent : ℚ
  takeProfitPercent : ℚ
  squareOffDate : Int
  currencySymbol : String := ""
  notes : String := ""
deriving DecidableEq

/-- The trade object constructed by `addNewTrade`: fractional
`shares`, but an initial `currentValue` computed from the
`Math.floor`ed whole-share count. -/
def addNewTrade (tradeId : String) (d : TradeData) : LTrade :=
  { id := tradeId, status := "active", stockName := d.stockName,
    symbol := d.symbol, entryDate := d.entryDate, entryPrice := d.entryPrice,
    currentPrice := d.entryPrice, investmentAmount := d.investmentAmount,
    shares := d.investmentAmount / d.entryPrice,
    currentValue := (⌊d.investmentAmount / d.entryPrice⌋ : ℚ) * d.entryPrice,
    stopLossPrice := d.stopLossPrice, targetPrice := d.targetPrice,
    stopLossPercent := d.stopLossPercent, takeProfitPercent := d.takeProfitPercent,
    squareOffDate := d.squareOffDate, holdingDays := 0,
    currentPLPercent := 0, currentPLValue := 0,
    currencySymbol := if d.currencySymbol ≠ "" then d.currencySymbol
                      else getCurrencySymbol d.symbol,
    notes := d.notes }

/-- One point of the equity-curve series. -/
structure EqPoint where
  date : Int
  equity : ℚ
  equityPercent : ℚ
  isActive : Bool := false
deriving DecidableEq

/-- One point of the drawdown series. -/
structure DDPoint where
  date : Int
  drawdown : ℚ
deriving DecidableEq

/-- The private module state of `TradeCore`: the three trade arrays
(`activeTrades`/`closedTrades` alias `allTrades` by status) and the
two cached analytics series (`null` when invalidated). -/
structure Ledger where
  allTrades : List LTrade
  activeTrades : List LTrade
  closedTrades : List LTrade
  equityCurveData : Option (List EqPoint) := none
  drawdownData : Option (List DDPoint) := none
deriving DecidableEq

/-- Sort comparator `(a, b) => b.entryDate - a.entryDate` (entry date
descending) as a total preorder. -/
def entryDesc (a b : LTrade) : Prop := b.entryDate ≤ a.entryDate

/-- Sort comparator `(a, b) => b.exitDate - a.exitDate` (exit date
descending) as a total preorder. -/
def exitDesc (a b : LTrade) : Prop := b.exitDate.getD 0 ≤ a.exitDate.getD 0

/-- Sort comparator `(a, b) => a.exitDate - b.exitDate` (exit date
ascending) as a total preorder. -/
def exitAsc (a b : LTrade) : Prop := a.exitDate.getD 0 ≤ b.exitDate.getD 0

/-- Sort comparator `(a, b) => a.entryDate - b.entryDate` (entry date
ascending) as a total preorder. -/
def entryAsc (a b : LTrade) : Prop := a.entryDate ≤ b.entryDate

instance : DecidableRel entryDesc := fun a b => by unfold entryDesc; infer_instance
instance : DecidableRel exitDesc := fun a b => by unfold exitDesc; infer_instance
instance : DecidableRel exitAsc := fun a b => by unfold exitAsc; infer_instance
instance : DecidableRel entryAsc := fun a b => by unfold entryAsc; infer_instance

instance : IsTotal LTrade entryDesc := ⟨fun a b => le_total b.entryDate a.entryDate⟩
instance : IsTrans LTrade entryDesc := ⟨fun _ _ _ h h' => le_trans h' h⟩
instance : IsTotal LTrade exitDesc := ⟨fun a b => le_total (b.exitDate.getD 0) (a.exitDate.getD 0)⟩
instance : IsTrans LTrade exitDesc := ⟨fun _ _ _ h h' => le_trans h' h⟩
instance : IsTotal LTrade exitAsc := ⟨fun a b => le_total (a.exitDate.getD 0) (b.exitDate.getD 0)⟩
instance : IsTrans LTrade exitAsc := ⟨fun _ _ _ h h' => le_trans h h'⟩
instance : IsTotal LTrade entryAsc := ⟨fun a b => le_total a.entryDate b.entryDate⟩
instance : IsTrans LTrade entryAsc := ⟨fun _ _ _ h h' => le_trans h h'⟩

/-- `saveTradestoStorage`: the `localStorage.setItem` write is an
external persistence collaborator whose outcome is the explicit
`saveOk` argument.  On success the cache null-outs (which sit inside
the `try` after the write) run and the function returns true; on a
failed write they are skipped, the stale caches survive, and it
returns false. -/
def saveTradestoStorage (saveOk : Bool) (l : Ledger) : Ledger × Bool :=
  if saveOk then
    ({ l with equityCurveData := none, drawdownData := none }, true)
  else
    (l, false)

/-- `closeTradeAutomatically` at the Ledger level: close the given
trade (mutating it through every alias in `allTrades`), move it from
the active to the closed array, re-sort both, then persist — the
collections are mutated before the save, and the save result is
ignored. -/
def closeTradeAutomatically (l : Ledger) (t : LTrade) (reason : String)
    (exitPrice : ℚ) (now : Int) (saveOk : Bool) : Ledger :=
  let tc := closeTradeFields t reason exitPrice now
  (saveTradestoStorage saveOk
    { l with
      allTrades := l.allTrades.map (fun x => if x.id = t.id then tc else x),
      activeTrades := List.insertionSort entryDesc
        (l.activeTrades.filter (fun x => decide (x.id ≠ t.id))),
      closedTrades := List.insertionSort exitDesc (l.closedTrades ++ [tc]) }).1

/-- `closeTrade` (manual close): find the active trade by id; on
success update it (including the `notes ? notes : trade.notes`
fallback), move it to the closed array, re-sort, persist.  The save
result is ignored (`const saved = ...` is never tested) and the
function returns true. -/
def closeTrade (l : Ledger) (tradeId : String) (exitPrice : ℚ)
    (reason : String) (notes : String) (now : Int) (saveOk : Bool) :
    Ledger × Bool :=
  match l.activeTrades.find? (fun t => t.id = tradeId) with
  | none => (l, false)
  | some t =>
      let tc := { closeTradeFields t reason exitPrice now with
                  notes := if notes ≠ "" then notes else t.notes }
      ((saveTradestoStorage saveOk
        { l with
          allTrades := l.allTrades.map (fun x => if x.id = tradeId then tc else x),
          activeTrades := List.insertionSort entryDesc
            (l.activeTrades.filter (fun x => decide (x.id ≠ tradeId))),
          closedTrades := List.insertionSort exitDesc (l.closedTrades ++ [tc]) }).1,
       true)

/-- `deleteTrade`: unconditional hard removal from whichever arrays
hold the trade, then persist (result ignored).  Returns the new state
and the boolean result. -/
def deleteTrade (l : Ledger) (tradeId : String) (saveOk : Bool) :
    Ledger × Bool :=
  match l.allTrades.find? (fun t => t.id = tradeId) with
  | none => (l, false)
  | some t =>
      ((saveTradestoStorage saveOk
        { l with
          allTrades := l.allTrades.filter (fun x => decide (x.id ≠ tradeId)),
          activeTrades := if t.status = "active" then
              l.activeTrades.filter (fun x => decide (x.id ≠ tradeId))
            else l.activeTrades,
          closedTrades := if t.status = "active" then l.closedTrades
            else l.closedTrades.filter (fun x => decide (x.id ≠ tradeId)) }).1,
       true)

/-- `clearTradeHistory`: drop all closed trades, keep active ones,
clear the cached analytics series explicitly (these null-outs precede
the save, so they run even when the write fails), then persist. -/
def clearTradeHistory (l : Ledger) (saveOk : Bool) : Ledger :=
  (saveTradestoStorage saveOk
    { l with allTrades := l.activeTrades, closedTrades := [],
             equityCurveData := none, drawdownData := none }).1

/-! ## Import / export -/

/-- The export document produced by `exportAllTradesJSON`
(`{metadata, trades}`). -/
structure ExportDoc where
  version : String
  exportDate : Int
  tradeCount : Nat
  activeCount : Nat
  closedCount : Nat
  trades : List LTrade
deriving DecidableEq

/-- `exportAllTradesJSON`: wrap the current `allTrades` with
metadata. -/
def exportAllTradesJSON (l : Ledger) (now : Int) : ExportDoc :=
  { version := "1.0.0", exportDate := now, tradeCount := l.allTrades.length,
    activeCount := l.activeTrades.length, closedCount := l.closedTrades.length,
    trades := l.allTrades }

/-- `validateImportData`: the document shape is guaranteed by typing;
the remaining checks are a non-empty trade sequence (required fields
on the sample are present by typing, and the version check is only a
warning). -/
def validateImportData (doc : ExportDoc) : Bool :=
  !doc.trades.isEmpty

/-- `prepareTrade`: normalize an imported trade — dates and numeric
fields are already typed here, an empty `currencySymbol` is derived
from the symbol, and for active trades current value, P/L and holding
days are recomputed.  Closed trades keep their imported exit and P/L
fields untouched. -/
def prepareTrade (now : Int) (t : LTrade) : LTrade :=
  let t1 := if t.currencySymbol = ""
    then { t with currencySymbol := getCurrencySymbol t.symbol }
    else t
  if t1.status = "active" then
    let t2 := if t1.currentPrice = 0 then { t1 with currentPrice := t1.entryPrice } else t1
    { t2 with
      currentValue := t2.shares * t2.currentPrice,
      currentPLPercent := (t2.currentPrice - t2.entryPrice) / t2.entryPrice * 100,
      currentPLValue := t2.shares * t2.currentPrice - t2.shares * t2.entryPrice,
      holdingDays := max 0 ((now - t2.entryDate).fdiv msPerDay) }
  else t1

/-- The counters returned by `importTradesFromJSON`. -/
structure ImportResults where
  added : Nat := 0
  updated : Nat := 0
  skipped : Nat := 0
  errors : Nat := 0
  total : Nat := 0
  kept : Nat := 0
  failed : Bool := false
deriving DecidableEq

/-- Import modes of `importTradesFromJSON`. -/
inductive ImportMode where
  | replace : ImportMode
  | add : ImportMode
  | merge : ImportMode
deriving DecidableEq

/-- Status rank of the final `allTrades` sort of the import: active
trades first. -/
def statusRank (t : LTrade) : Nat := if t.status = "active" then 0 else 1

/-- Date key of the final `allTrades` sort of the import: entry date
for active trades, exit date for closed ones. -/
def ledgerDateKey (t : LTrade) : Int :=
  if t.status = "active" then t.entryDate else t.exitDate.getD 0

/-- The comparator of the final `allTrades` sort of the import as a
total preorder: active first, then each group by its date key,
descending. -/
def ledgerAllLE (a b : LTrade) : Prop :=
  statusRank a < statusRank b ∨
    (statusRank a = statusRank b ∧ ledgerDateKey b ≤ ledgerDateKey a)

instance : DecidableRel ledgerAllLE := fun a b => by unfold ledgerAllLE; infer_instance

instance : IsTotal LTrade ledgerAllLE := by
  constructor
  intro a b
  unfold ledgerAllLE
  rcases Nat.lt_trichotomy (statusRank a) (statusRank b) with h | h | h
  · exact Or.inl (Or.inl h)
  · rcases le_total (ledgerDateKey b) (ledgerDateKey a) with h' | h'
    · exact Or.inl (Or.inr ⟨h, h'⟩)
    · exact Or.inr (Or.inr ⟨h.symm, h'⟩)
  · exact Or.inr (Or.inl h)

instance : IsTrans LTrade ledgerAllLE := by
  constructor
  intro a b c hab hbc
  unfold ledgerAllLE at *
  rcases hab with h1 | ⟨h1, h1'⟩
  · rcases hbc with h2 | ⟨h2, _⟩
    · exact Or.inl (h1.trans h2)
    · exact Or.inl (h2 ▸ h1)
  · rcases hbc with h2 | ⟨h2, h2'⟩
    · exact Or.inl (h1 ▸ h2)
    · exact Or.inr ⟨h1.trans h2, h2'.trans h1'⟩

/-- One step of the merge-mode loop: membership is decided against
the map of pre-import ids, the index to overwrite against the current
array. -/
def mergeOne (existingIds : List String) (now : Int)
    (st : List LTrade × ImportResults) (it : LTrade) : List LTrade × ImportResults :=
  let processed := prepareTrade now it
  if processed.id ∈ existingIds then
    match st.1.findIdx? (fun t => t.id = processed.id) with
    | some j => (st.1.set j processed, { st.2 with updated := st.2.updated + 1 })
    | none => (st.1 ++ [processed], { st.2 with added := st.2.added + 1 })
  else
    (st.1 ++ [processed], { st.2 with added := st.2.added + 1 })

/-- The per-mode processing of `importTradesFromJSON` (`replace`,
`add`, `merge`); `freshId` abstracts the `'trade_' + Date.now() + ...`
id generator of `add` mode. -/
def importProcess (l : Ledger) (doc : ExportDoc) (mode : ImportMode)
    (keepActive : Bool) (now : Int) (freshId : Nat → String) :
    List LTrade × ImportResults :=
  match mode with
  | .replace =>
      let currentActive := if keepActive then l.activeTrades else []
      let replaced := doc.trades.map (prepareTrade now)
      let importedIds := replaced.map (fun t => t.id)
      let withKept := currentActive.foldl
        (fun st t => if t.id ∈ importedIds then st
          else (st.1 ++ [t], { st.2 with kept := st.2.kept + 1 }))
        (replaced, ({ total := doc.trades.length } : ImportResults))
      (withKept.1, { withKept.2 with added := doc.trades.length })
  | .add =>
      (doc.trades.enum.foldl
        (fun st p =>
          (st.1 ++ [{ prepareTrade now p.2 with id := freshId p.1 }],
           { st.2 with added := st.2.added + 1 }))
        (l.allTrades, ({ total := doc.trades.length } : ImportResults)))
  | .merge =>
      doc.trades.foldl (mergeOne (l.allTrades.map (fun t => t.id)) now)
        (l.allTrades, ({ total := doc.trades.length } : ImportResults))

/-- `importTradesFromJSON`: validate, process (see `importProcess`),
rebuild the active/closed partition, re-sort `allTrades`, then
persist.  On a failed write the `if (!saved) throw` lands in the
outer catch: the already-mutated collections are kept, the explicit
cache null-outs are skipped, and an error result is returned; on
success the caches are cleared (by the save and again explicitly). -/
def importTradesFromJSON (l : Ledger) (doc : ExportDoc) (mode : ImportMode)
    (keepActive : Bool) (now : Int) (freshId : Nat → String) (saveOk : Bool) :
    Ledger × ImportResults :=
  if !validateImportData doc then
    (l, { errors := 1, failed := true })
  else
    let step := importProcess l doc mode keepActive now freshId
    let saved := saveTradestoStorage saveOk
      { l with
        allTrades := List.insertionSort ledgerAllLE step.1,
        activeTrades := step.1.filter (fun t => t.status = "active"),
        closedTrades := step.1.filter (fun t => !(t.status = "active")) }
    if saved.2 then
      ({ saved.1 with equityCurveData := none, drawdownData := none }, step.2)
    else
      (saved.1, { errors := 1, failed := true })

/-! ## Analytics Engine -/

/-- The uncached equity-curve computation of `getEquityCurveData`:
seed at the first (exit-date-sorted) closed trade's entry date,
accumulate `plValue` per closed trade, then append the active trades'
`currentPLValue` as `isActive` points dated `now`. -/
def computeEquityCurve (l : Ledger) (now : Int) : List EqPoint :=
  match List.insertionSort exitAsc l.closedTrades with
  | [] => []
  | first :: rest =>
      let initialInvestment := (l.closedTrades.map (fun t => t.investmentAmount)).sum
      let seed : List EqPoint × ℚ :=
        ([{ date := first.entryDate, equity := 0, equityPercent := 0 }], 0)
      let closedPart := (first :: rest).foldl
        (fun acc t =>
          let rt := acc.2 + t.plValue.getD 0
          (acc.1 ++ [{ date := t.exitDate.getD 0, equity := rt,
                       equityPercent := rt / initialInvestment * 100 }], rt))
        seed
      let final :=
        if l.activeTrades = [] then closedPart
        else (List.insertionSort entryAsc l.activeTrades).foldl
          (fun acc t =>
            let rt := acc.2 + t.currentPLValue
            (acc.1 ++ [{ date := now, equity := rt,
                         equityPercent := rt / initialInvestment * 100,
                         isActive := true }], rt))
          closedPart
      final.1

/-- `getEquityCurveData`: return the cached series when present,
else recompute (the empty-closed-set default short-circuits first in
the code; it coincides with the recomputation). -/
def getEquityCurveData (l : Ledger) (now : Int) : List EqPoint :=
  match l.equityCurveData with
  | some c => c
  | none => if l.closedTrades = [] then [] else computeEquityCurve l now

/-- The uncached drawdown walk of `getDrawdownChartData` over an
equity curve: percentage below the running peak at each point. -/
def computeDrawdown (curve : List EqPoint) : List DDPoint :=
  (curve.foldl
    (fun (acc : ℚ × List DDPoint) point =>
      if acc.1 < point.equity then
        (point.equity, acc.2 ++ [{ date := point.date, drawdown := 0 }])
      else
        let dd : ℚ := if acc.1 ≠ 0 then (acc.1 - point.equity) / acc.1 * 100 else 0
        (acc.1, acc.2 ++ [{ date := point.date, drawdown := dd }]))
    (0, [])).2

/-- `getDrawdownChartData`: cached when present, else the drawdown
walk over `getEquityCurveData`. -/
def getDrawdownChartData (l : Ledger) (now : Int) : List DDPoint :=
  match l.drawdownData with
  | some d => d
  | none =>
      if l.closedTrades = [] then []
      else computeDrawdown (getEquityCurveData l now)

/-- The implied daily compounding rate of one closed trade
(`(1+plPercent/100)^(1/holdingDays) - 1 * 100`, holding days floored
at 1); `powQ` abstracts `Math.pow`. -/
def dailyReturnRate (powQ : ℚ → ℚ → ℚ) (t : LTrade) : ℚ :=
  let holdingDays : Int := max 1 ((t.exitDate.getD 0 - t.entryDate).fdiv msPerDay)
  (powQ (1 + t.plPercent.getD 0 / 100) (1 / (holdingDays : ℚ)) - 1) * 100

/-- `getSharpeRatio`: mean and population standard deviation of the
per-trade implied daily rates, Sharpe as
`(mean - dailyRiskFree) / stdDev * sqrt(252)` in JS arithmetic, with
the final `isNaN` guard mapping `NaN` (and only `NaN`) to 0.
`powQ`, `sqrtQ` and `annualizationFactor` abstract `Math.pow`,
`Math.sqrt` and `Math.sqrt(252)`.  `avgDailyReturn` is the mean
implied daily rate. -/
def avgDailyReturn (closedTrades : List LTrade) (powQ : ℚ → ℚ → ℚ) : ℚ :=
  ((closedTrades.map (dailyReturnRate powQ)).sum) / (closedTrades.length : ℚ)

/-- The population variance of the implied daily rates. -/
def dailyReturnVariance (closedTrades : List LTrade) (powQ : ℚ → ℚ → ℚ) : ℚ :=
  let dailyReturns := closedTrades.map (dailyReturnRate powQ)
  (dailyReturns.map (fun x => (x - avgDailyReturn closedTrades powQ) ^ 2)).sum /
    (dailyReturns.length : ℚ)

/-- The annual risk-free rate converted to a daily rate. -/
def dailyRiskFreeRate (riskFreeRate : ℚ) (powQ : ℚ → ℚ → ℚ) : ℚ :=
  (powQ (1 + riskFreeRate) (1 / 365) - 1) * 100

def getSharpeRatio (closedTrades : List LTrade) (riskFreeRate : ℚ)
    (powQ : ℚ → ℚ → ℚ) (sqrtQ : ℚ → ℚ) (annualizationFactor : ℚ) : JNum :=
  if closedTrades = [] then JNum.num 0
  else
    let stdDeviation := sqrtQ (dailyReturnVariance closedTrades powQ)
    let sharpeRatio :=
      JNum.mul (JNum.div (JNum.num (avgDailyReturn closedTrades powQ -
                                    dailyRiskFreeRate riskFreeRate powQ))
                         (JNum.num stdDeviation))
               (JNum.num annualizationFactor)
    if sharpeRatio.isNan then JNum.num 0 else sharpeRatio

/-! ## Parameter Optimizer (`calculatePerformanceMetrics`,
`findOptimalParameters`) -/

/-- The metrics record of `calculatePerformanceMetrics` (the fields
the optimizer and its score read; `totalReturn` and `profitFactor`
are JS numbers because the initial optimizer sentinel is `-Infinity`
and the profit factor can be `Infinity`). -/
structure BTMetrics where
  totalTrades : Nat
  winningTrades : Nat
  losingTrades : Nat
  winRate : ℚ
  avgProfit : ℚ
  totalReturn : JNum
  profitFactor : JNum
deriving DecidableEq

/-- `calculatePerformanceMetrics` (the fields above): counts, win
rate, total return and gross-profit/gross-loss profit factor over the
completed trades of a backtest result. -/
def calculatePerformanceMetrics (trades : List SimTrade) : BTMetrics :=
  if trades = [] then
    { totalTrades := 0, winningTrades := 0, losingTrades := 0, winRate := 0,
      avgProfit := 0, totalReturn := JNum.num 0, profitFactor := JNum.num 0 }
  else
    let completedTrades := trades.filter
      (fun t => t.exitDate.isSome && t.exitReason.isSome)
    let pls := completedTrades.map (fun t => t.plPercent.getD 0)
    let winningTrades := (pls.filter (fun p => decide (0 < p))).length
    let losingTrades := (pls.filter (fun p => !decide (0 < p))).length
    let grossProfit := (pls.filter (fun p => decide (0 < p))).sum
    let grossLoss := (pls.filter (fun p => !decide (0 < p))).map (fun p => |p|) |>.sum
    let totalProfit := pls.sum
    let totalTrades := completedTrades.length
    { totalTrades := totalTrades,
      winningTrades := winningTrades,
      losingTrades := losingTrades,
      winRate := if 0 < totalTrades then (winningTrades : ℚ) / totalTrades * 100 else 0,
      avgProfit := if 0 < totalTrades then totalProfit / totalTrades else 0,
      totalReturn := JNum.num totalProfit,
      profitFactor := if 0 < grossLoss then JNum.num (grossProfit / grossLoss)
        else if 0 < grossProfit then JNum.inf true else JNum.num 0 }

/-- One parameter combination of the optimizer grid. -/
structure OptParams where
  r : ℚ
  s : ℚ
  u : ℚ
  entryThreshold : ℚ
  takeProfitPercent : ℚ
  stopLossPercent : ℚ
  maxHoldingDays : ℚ
deriving DecidableEq

/-- The optimizer's parameter ranges. -/
structure OptRanges where
  r : List ℚ
  s : List ℚ
  u : List ℚ
  entryThreshold : List ℚ
  takeProfitPercent : List ℚ
  stopLossPercent : List ℚ
  maxHoldingDays : List ℚ
deriving DecidableEq

/-- All combinations of the ranges, in the nesting order of the seven
loops. -/
def allCombinations (ranges : OptRanges) : List OptParams :=
  ranges.r.flatMap (fun r =>
    ranges.s.flatMap (fun s =>
      ranges.u.flatMap (fun u =>
        ranges.entryThreshold.flatMap (fun entryThreshold =>
          ranges.takeProfitPercent.flatMap (fun takeProfitPercent =>
            ranges.stopLossPercent.flatMap (fun stopLossPercent =>
              ranges.maxHoldingDays.map (fun maxHoldingDays =>
                { r := r, s := s, u := u, entryThreshold := entryThreshold,
                  takeProfitPercent := takeProfitPercent,
                  stopLossPercent := stopLossPercent,
                  maxHoldingDays := maxHoldingDays })))))))

/-- The optimizer's best-so-far record. -/
structure BestResult where
  params : Option OptParams
  metrics : BTMetrics
deriving DecidableEq

/-- The initial `bestResult` sentinel of `findOptimalParameters`:
`params: null`, `totalReturn: -Infinity`, `winRate: 0`,
`profitFactor: 0`. -/
def initialBestResult : BestResult :=
  { params := none,
    metrics := { totalTrades := 0, winningTrades := 0, losingTrades := 0,
                 winRate := 0, avgProfit := 0, totalReturn := JNum.inf false,
                 profitFactor := JNum.num 0 } }

/-- The score `totalReturn * (winRate / 100) * profitFactor` in JS
arithmetic. -/
def optScore (m : BTMetrics) : JNum :=
  JNum.mul (JNum.mul m.totalReturn (JNum.num (m.winRate / 100))) m.profitFactor

/-- One iteration of the optimizer grid loop: run the combination
through the (externally computed) indicator feed plus backtest plus
metrics — abstracted as `evalCombo` — and keep the best score subject
to the 5-trade floor, exactly as the code compares
`currentScore > bestScore && metrics.totalTrades >= 5`. -/
def optStep (evalCombo : OptParams → BTMetrics)
    (acc : BestResult × List (OptParams × BTMetrics)) (p : OptParams) :
    BestResult × List (OptParams × BTMetrics) :=
  let metrics := evalCombo p
  let results := acc.2 ++ [(p, metrics)]
  let currentScore := optScore metrics
  let bestScore := optScore acc.1.metrics
  if JNum.jgt currentScore bestScore ∧ 5 ≤ metrics.totalTrades then
    ({ params := some p, metrics := metrics }, results)
  else (acc.1, results)

/-- The grid search itself: fold `optStep` over every combination,
starting from the `null`-params sentinel. -/
def findOptimalParameters (ranges : OptRanges) (evalCombo : OptParams → BTMetrics) :
    BestResult × List (OptParams × BTMetrics) :=
  (allCombinations ranges).foldl (optStep evalCombo) (initialBestResult, [])

/-! ## Theorems -/

/-- The JS comparison against a `NaN` best score is always false. -/
theorem jgt_nan_right (x : JNum) : JNum.jgt x JNum.nan = false := by
  cases x <;> rfl

/-- The sentinel score `-Infinity * (0/100) * 0` is `NaN`. -/
theorem optScore_initial : optScore initialBestResult.metrics = JNum.nan := by
  norm_num [optScore, initialBestResult, JNum.mul]

/-- The optimizer fold never moves away from the sentinel. -/
theorem optFold_fixed (evalCombo : OptParams → BTMetrics) :
    ∀ (combos : List OptParams) (acc : List (OptParams × BTMetrics)),
      (combos.foldl (optStep evalCombo) (initialBestResult, acc)).1 =
        initialBestResult := by
  intro combos
  induction combos with
  | nil => intro acc; rfl
  | cons p ps ih =>
      intro acc
      have hstep : optStep evalCombo (initialBestResult, acc) p =
          (initialBestResult, acc ++ [(p, evalCombo p)]) := by
        unfold optStep
        rw [if_neg]
        intro hcond
        have := hcond.1
        rw [optScore_initial, jgt_nan_right] at this
        exact Bool.false_ne_true this
      rw [List.foldl_cons, hstep, ih]

/-- C5: the Parameter Optimizer never returns a best parameter set.
The initial sentinel has `totalReturn = -Infinity`, `winRate = 0`,
`profitFactor = 0`, so the initial best score is
`-Infinity * 0 * 0 = NaN`, and `currentScore > NaN` is false for
every combination; `bestResult` therefore stays at the sentinel with
`params: null` for every grid and every backtest outcome, against the
claim that the best-scoring qualifying combination is returned. -/
theorem c5_optimizer_never_selects (ranges : OptRanges)
    (evalCombo : OptParams → BTMetrics) :
    (findOptimalParameters ranges evalCombo).1 = initialBestResult ∧
    (findOptimalParameters ranges evalCombo).1.params = none := by
  have h := optFold_fixed evalCombo (allCombinations ranges) []
  exact ⟨h, by rw [findOptimalParameters] at *; rw [h]; rfl⟩

/-- C5, evaluated at a concrete failing grid: a single combination
whose metrics pass the 5-trade floor with a strictly positive score,
yet the optimizer still reports no parameters. -/
theorem c5_failing_input :
    (findOptimalParameters
      { r := [14], s := [10], u := [5], entryThreshold := [-40],
        takeProfitPercent := [8], stopLossPercent := [5], maxHoldingDays := [30] }
      (fun _ => { totalTrades := 6, winningTrades := 5, losingTrades := 1,
                  winRate := 250 / 3, avgProfit := 2, totalReturn := JNum.num 12,
                  profitFactor := JNum.num 4 })).1.params = none := by
  rw [findOptimalParameters, optFold_fixed]
  rfl

/-- C6 (amended): mismatched sequence lengths make the Backtest
Engine abort with an input-validation failure and empty output, while
an empty series passes the validation guard (a JS empty array is
truthy and the lengths agree) and yields empty output with no
validation failure; engine-level parameter validation is a separate
function the engine never calls. -/
theorem c6_validation_behaviour (inp : BTInput) (params : BTParams)
    (addSixMonths : Int → Int) :
    ((inp.dates.length ≠ inp.prices.length ∨ inp.dates.length ≠ inp.dti.length) →
      backtestWithActiveDetection inp params addSixMonths =
        { completedTrades := [], activeTrade := none, validationError := true }) ∧
    (inp.dates = [] → inp.prices = [] → inp.dti = [] →
      backtestWithActiveDetection inp params addSixMonths =
        { completedTrades := [], activeTrade := none, validationError := false }) := by
  constructor
  · intro h
    rw [backtestWithActiveDetection, if_pos h]
  · intro h1 h2 h3
    rw [backtestWithActiveDetection, if_neg]
    · simp [btRun, h3, List.range']
    · simp [h1, h2, h3]

/-- Empty input series used for the C6 counterexample. -/
def c6EmptyInput : BTInput :=
  { dates := [], prices := [], dti := [], daily7DayDTI := [],
    sevenDayData := [], sevenDayDTI := [] }

/-- Default-looking parameters used for the C6 counterexample. -/
def c6Params : BTParams :=
  { entryThreshold := -40, takeProfitPercent := 5, stopLossPercent := 3,
    maxHoldingDays := 30, enable7DayDTI := true }

/-- C6 counterexample: on the empty series the run does NOT report an
input-validation failure (the guard passes and the loop is empty),
contradicting the claim that an empty series aborts with a validation
failure. -/
theorem c6_counterexample :
    (backtestWithActiveDetection c6EmptyInput c6Params
      (fun d => d + 183 * msPerDay)).validationError = false := by
  decide

/-- C6 witness: the amended theorem applied to a concrete mismatched
input. -/
theorem c6_witness :
    backtestWithActiveDetection
      { dates := [0], prices := [], dti := [], daily7DayDTI := [],
        sevenDayData := [], sevenDayDTI := [] } c6Params
      (fun d => d + 183 * msPerDay) =
      { completedTrades := [], activeTrade := none, validationError := true } :=
  (c6_validation_behaviour _ c6Params _).1 (by decide)

/-- C10: `addNewTrade` stores fractional shares but initializes
`currentValue` from the floored whole-share count, so whenever
`investmentAmount / entryPrice` is not an integer the fresh trade has
`currentValue ≠ shares * currentPrice`; the first `updateTradeStatus`
call (re)establishes `currentValue = shares * currentPrice` for every
active trade. -/
theorem c10_creation_current_value (tradeId : String) (d : TradeData) (now : Int)
    (hp : 0 < d.entryPrice)
    (hfrac : (⌊d.investmentAmount / d.entryPrice⌋ : ℚ) ≠ d.investmentAmount / d.entryPrice) :
    (addNewTrade tradeId d).currentValue ≠
      (addNewTrade tradeId d).shares * (addNewTrade tradeId d).currentPrice ∧
    ∀ t : LTrade, t.status = "active" →
      (updateTradeStatus now t).currentValue = t.shares * t.currentPrice := by
  constructor
  · show (⌊d.investmentAmount / d.entryPrice⌋ : ℚ) * d.entryPrice ≠
      d.investmentAmount / d.entryPrice * d.entryPrice
    intro h
    exact hfrac (mul_right_cancel₀ hp.ne' h)
  · intro t ht
    rw [updateTradeStatus, if_neg (by simp [ht])]
    simp only [closeTradeFields]
    split_ifs <;> rfl

/-- Concrete creation data for the C10 witness: 10 invested at an
entry price of 3 gives fractional shares. -/
def c10Data : TradeData :=
  { stockName := "Sample", symbol := "SMPL", entryDate := 0, entryPrice := 3,
    investmentAmount := 10, stopLossPrice := 2, targetPrice := 4,
    stopLossPercent := 5, takeProfitPercent := 8, squareOffDate := 30 * msPerDay }

/-- C10 witness: the theorem applied to the concrete creation data. -/
theorem c10_witness :
    (addNewTrade "w" c10Data).currentValue ≠
      (addNewTrade "w" c10Data).shares * (addNewTrade "w" c10Data).currentPrice :=
  (c10_creation_current_value "w" c10Data 0 (by norm_num [c10Data])
    (by norm_num [c10Data])).1

/-- The profit/loss percentage the backtest loop computes for an open
trade at step `i` (shorthand for the expression in `btStep`). -/
def btStepPl (inp : BTInput) (t0 : SimTrade) (i : Nat) : ℚ :=
  (inp.prices.getD i 0 - t0.entryPrice) / t0.entryPrice * 100

/-- C1: exit-priority contract.  When both the take-profit and
stop-loss thresholds hold at a backtest step, the Backtest Engine
closes with reason "Take Profit"; when both the stop-loss price and
the target price hold on an active ledger trade, `updateTradeStatus`
closes it with reason "Stop Loss Hit".  The remaining conjuncts state
that each evaluator fires only the first satisfied condition of its
own priority order (backtest: take-profit, stop-loss, time; ledger:
stop-loss, target, square-off date). -/
theorem c1_exit_priority_contract
    (inp : BTInput) (params : BTParams) (earliest : Int) (s : BTState)
    (i : Nat) (t0 : SimTrade) (now : Int) (t : LTrade)
    (hs : s.activeTrade = some t0)
    (hTP : params.takeProfitPercent ≤ btStepPl inp t0 i)
    (hSL : btStepPl inp t0 i ≤ -params.stopLossPercent)
    (ht : t.status = "active")
    (hsl : t.currentPrice ≤ t.stopLossPrice)
    (htg : t.targetPrice ≤ t.currentPrice) :
    ((btStep inp params earliest s i).activeTrade = none ∧
     ∃ tc, (btStep inp params earliest s i).completedTrades =
            s.completedTrades ++ [tc] ∧ tc.exitReason = some "Take Profit") ∧
    ((updateTradeStatus now t).status = "closed" ∧
     (updateTradeStatus now t).exitReason = some "Stop Loss Hit") ∧
    (∀ (s2 : BTState) (t1 : SimTrade), s2.activeTrade = some t1 →
      ¬ params.takeProfitPercent ≤ btStepPl inp t1 i →
      btStepPl inp t1 i ≤ -params.stopLossPercent →
      ∃ tc, (btStep inp params earliest s2 i).completedTrades =
            s2.completedTrades ++ [tc] ∧ tc.exitReason = some "Stop Loss") ∧
    (∀ (s2 : BTState) (t1 : SimTrade), s2.activeTrade = some t1 →
      ¬ params.takeProfitPercent ≤ btStepPl inp t1 i →
      ¬ btStepPl inp t1 i ≤ -params.stopLossPercent →
      params.maxHoldingDays ≤ (inp.dates.getD i 0 - t1.entryDate).fdiv msPerDay →
      ∃ tc, (btStep inp params earliest s2 i).completedTrades =
            s2.completedTrades ++ [tc] ∧ tc.exitReason = some "Time Exit") ∧
    (∀ u : LTrade, u.status = "active" → ¬ u.currentPrice ≤ u.stopLossPrice →
      u.targetPrice ≤ u.currentPrice →
      (updateTradeStatus now u).exitReason = some "Target Reached") ∧
    (∀ u : LTrade, u.status = "active" → ¬ u.currentPrice ≤ u.stopLossPrice →
      ¬ u.targetPrice ≤ u.currentPrice → u.squareOffDate ≤ now →
      (updateTradeStatus now u).exitReason = some "Time Exit") := by
  simp only [btStepPl] at hTP hSL
  refine ⟨?_, ?_, ?_, ?_, ?_, ?_⟩
  · rw [btStep, hs]
    simp only []
    rw [if_pos hTP]
    exact ⟨rfl, _, rfl, rfl⟩
  · rw [updateTradeStatus, if_neg (by simp [ht])]
    simp only []
    rw [if_pos hsl]
    exact ⟨rfl, rfl⟩
  · intro s2 t1 hs2 hnTP hSL1
    simp only [btStepPl] at hnTP hSL1
    rw [btStep, hs2]
    simp only []
    rw [if_neg hnTP, if_pos hSL1]
    exact ⟨_, rfl, rfl⟩
  · intro s2 t1 hs2 hnTP hnSL hTime
    simp only [btStepPl] at hnTP hnSL
    rw [btStep, hs2]
    simp only []
    rw [if_neg hnTP, if_neg hnSL, if_pos hTime]
    exact ⟨_, rfl, rfl⟩
  · intro u hu hnsl hutg
    rw [updateTradeStatus, if_neg (by simp [hu])]
    simp only []
    rw [if_neg hnsl, if_pos hutg]
    rfl
  · intro u hu hnsl hntg hsq
    rw [updateTradeStatus, if_neg (by simp [hu])]
    simp only []
    rw [if_neg hnsl, if_neg hntg, if_pos hsq]
    rfl

/-- Concrete backtest input for the C1 witness: entry at 100, price
94 at the next step. -/
def c1Input : BTInput :=
  { dates := [0, msPerDay], prices := [100, 94], dti := [-50, -45],
    daily7DayDTI := [-50, -45], sevenDayData := [{ startIndex := 0, endIndex := 1 }],
    sevenDayDTI := [-48] }

/-- Parameters with both thresholds satisfiable at once
(take-profit -10, stop-loss 5, so P/L -6 triggers both). -/
def c1Params : BTParams :=
  { entryThreshold := -40, takeProfitPercent := -10, stopLossPercent := 5,
    maxHoldingDays := 30, enable7DayDTI := false }

/-- The open simulated trade of the C1 witness. -/
def c1Open : SimTrade :=
  { entryDate := 0, entryPrice := 100, currentPrice := 100, entryDTI := -50,
    entry7DayDTI := some (-50), currentPlPercent := 0, holdingDays := 0,
    signalDate := 0 }

/-- The active ledger trade of the C1 witness: current price 50 is at
once below the stop loss 60 and above the target 40. -/
def c1Ledger : LTrade :=
  { id := "c1", status := "active", stockName := "Sample", symbol := "SMPL",
    entryDate := 0, entryPrice := 55, currentPrice := 50, investmentAmount := 550,
    shares := 10, currentValue := 550, stopLossPrice := 60, targetPrice := 40,
    stopLossPercent := 5, takeProfitPercent := 8, squareOffDate := 30 * msPerDay,
    holdingDays := 0, currentPLPercent := 0, currentPLValue := 0,
    currencySymbol := "$", notes := "" }

/-- C1 witness: the theorem applied to the concrete state where both
conditions of each evaluator hold at once. -/
theorem c1_witness :
    (btStep c1Input c1Params 0
      { completedTrades := [], activeTrade := some c1Open,
        previousTradeCompleted := false } 1).activeTrade = none ∧
    (updateTradeStatus 5 c1Ledger).exitReason = some "Stop Loss Hit" := by
  have h := c1_exit_priority_contract c1Input c1Params 0
    { completedTrades := [], activeTrade := some c1Open, previousTradeCompleted := false }
    1 c1Open 5 c1Ledger rfl (by norm_num [btStepPl, c1Input, c1Open, c1Params])
    (by norm_num [btStepPl, c1Input, c1Open, c1Params])
    (by norm_num [c1Ledger]) (by norm_num [c1Ledger]) (by norm_num [c1Ledger])
  exact ⟨h.1.1, h.2.1.2⟩

/-- The P/L consistency invariant claimed for closed ledger trades. -/
def plConsistent (t : LTrade) : Prop :=
  t.plValue = some (t.shares * (t.exitPrice.getD 0 - t.entryPrice)) ∧
  t.plPercent = some ((t.exitPrice.getD 0 - t.entryPrice) / t.entryPrice * 100)

/-- Whatever the write outcome, `saveTradestoStorage` never changes
the closed-trade array itself. -/
theorem saveTradestoStorage_fst_closedTrades (saveOk : Bool) (l : Ledger) :
    (saveTradestoStorage saveOk l).1.closedTrades = l.closedTrades := by
  cases saveOk <;> rfl

/-- C4 (amended): trades that enter the closed set through
`closeTrade` or `closeTradeAutomatically` satisfy
`plValue = shares * (exitPrice - entryPrice)` and
`plPercent = (exitPrice - entryPrice) / entryPrice * 100`; but
`prepareTrade` passes an imported closed trade's `plValue` and
`plPercent` through unchanged, so trades imported into the closed set
satisfy the invariant only if the import document already does. -/
theorem c4_closed_pl_consistency
    (l : Ledger) (tradeId : String) (exitPrice : ℚ) (reason notes : String)
    (now : Int) (t0 : LTrade) (saveOk : Bool) :
    (∀ l2, closeTrade l tradeId exitPrice reason notes now saveOk = (l2, true) →
       ∀ u ∈ l2.closedTrades, u ∈ l.closedTrades ∨ plConsistent u) ∧
    (∀ u ∈ (closeTradeAutomatically l t0 reason exitPrice now saveOk).closedTrades,
       u ∈ l.closedTrades ∨ plConsistent u) ∧
    (∀ v : LTrade, v.status ≠ "active" →
       (prepareTrade now v).plValue = v.plValue ∧
       (prepareTrade now v).plPercent = v.plPercent) := by
  refine ⟨?_, ?_, ?_⟩
  · intro l2 hclose u hu
    rw [closeTrade] at hclose
    cases hfind : l.activeTrades.find? (fun t => t.id = tradeId) with
    | none => rw [hfind] at hclose; simp at hclose
    | some t =>
        rw [hfind] at hclose
        simp only [Prod.mk.injEq] at hclose
        rw [← hclose.1] at hu
        rw [saveTradestoStorage_fst_closedTrades] at hu
        have hu2 := (List.mem_insertionSort _).mp hu
        rcases List.mem_append.mp hu2 with h | h
        · exact Or.inl h
        · right
          rw [List.mem_singleton] at h
          subst h
          refine ⟨?_, ?_⟩ <;> simp [closeTradeFields, plConsistent] <;> ring
  · intro u hu
    simp only [closeTradeAutomatically] at hu
    rw [saveTradestoStorage_fst_closedTrades] at hu
    have hu2 := (List.mem_insertionSort _).mp hu
    rcases List.mem_append.mp hu2 with h | h
    · exact Or.inl h
    · right
      rw [List.mem_singleton] at h
      subst h
      refine ⟨?_, ?_⟩ <;> simp [closeTradeFields, plConsistent] <;> ring
  · intro v hv
    rw [prepareTrade]
    by_cases hc : v.currencySymbol = ""
    · rw [if_pos hc, if_neg hv]
      exact ⟨rfl, rfl⟩
    · rw [if_neg hc, if_neg hv]
      exact ⟨rfl, rfl⟩

/-- A closed trade, as it could appear in an import document, whose
recorded `plValue` (999) disagrees with
`shares * (exitPrice - entryPrice)` (1). -/
def c4BadTrade : LTrade :=
  { id := "t1", status := "closed", stockName := "Bad", symbol := "BAD",
    entryDate := 0, entryPrice := 1, currentPrice := 2, investmentAmount := 1,
    shares := 1, currentValue := 2, stopLossPrice := 0, targetPrice := 3,
    stopLossPercent := 5, takeProfitPercent := 8, squareOffDate := 30 * msPerDay,
    holdingDays := 1, currentPLPercent := 0, currentPLValue := 0,
    currencySymbol := "$", notes := "", exitDate := some msPerDay,
    exitPrice := some 2, exitReason := some "Target Reached",
    plPercent := some 100, plValue := some 999 }

/-- The empty Ledger. -/
def emptyLedger : Ledger :=
  { allTrades := [], activeTrades := [], closedTrades := [] }

/-- The import document wrapping `c4BadTrade`. -/
def c4BadDoc : ExportDoc :=
  { version := "1.0.0", exportDate := 0, tradeCount := 1, activeCount := 0,
    closedCount := 1, trades := [c4BadTrade] }

/-- C4 counterexample: importing `c4BadDoc` (merge mode) puts
`c4BadTrade` into the closed set as is, and that closed LedgerTrade
violates `plValue = shares * (exitPrice - entryPrice)`. -/
theorem c4_counterexample :
    (importTradesFromJSON emptyLedger c4BadDoc .merge true 0 (fun _ => "f")
        true).1.closedTrades = [c4BadTrade] ∧
    c4BadTrade.status = "closed" ∧
    c4BadTrade.plValue ≠
      some (c4BadTrade.shares * (c4BadTrade.exitPrice.getD 0 - c4BadTrade.entryPrice)) := by
  refine ⟨by decide, rfl, by norm_num [c4BadTrade]⟩

/-- C4 witness: the amended theorem applied to the concrete imported
closed trade (its P/L fields pass through `prepareTrade`
unchanged). -/
theorem c4_witness :
    (prepareTrade 0 c4BadTrade).plValue = c4BadTrade.plValue :=
  ((c4_closed_pl_consistency emptyLedger "x" 1 "r" "" 0 c4BadTrade true).2.2
    c4BadTrade (by decide)).1

/-- C7 (amended): `getSharpeRatio` returns 0 exactly when the
computed JS value is `NaN` — the empty closed-trade set, or zero
standard deviation together with a mean equal to the daily risk-free
rate; with zero standard deviation and a mean different from the
risk-free rate it returns a signed Infinity (not 0), and with nonzero
standard deviation it returns
`(meanDaily - rfDaily) / stdDev * sqrt(252)`. -/
theorem c7_sharpe_nan_guard (closedTrades : List LTrade) (riskFreeRate : ℚ)
    (powQ : ℚ → ℚ → ℚ) (sqrtQ : ℚ → ℚ) (af : ℚ) :
    (closedTrades = [] →
      getSharpeRatio closedTrades riskFreeRate powQ sqrtQ af = JNum.num 0) ∧
    (closedTrades ≠ [] → sqrtQ (dailyReturnVariance closedTrades powQ) ≠ 0 →
      getSharpeRatio closedTrades riskFreeRate powQ sqrtQ af =
        JNum.num ((avgDailyReturn closedTrades powQ -
                   dailyRiskFreeRate riskFreeRate powQ) /
                  sqrtQ (dailyReturnVariance closedTrades powQ) * af)) ∧
    (closedTrades ≠ [] → sqrtQ (dailyReturnVariance closedTrades powQ) = 0 →
      avgDailyReturn closedTrades powQ = dailyRiskFreeRate riskFreeRate powQ →
      getSharpeRatio closedTrades riskFreeRate powQ sqrtQ af = JNum.num 0) ∧
    (closedTrades ≠ [] → sqrtQ (dailyReturnVariance closedTrades powQ) = 0 →
      avgDailyReturn closedTrades powQ ≠ dailyRiskFreeRate riskFreeRate powQ →
      0 < af →
      getSharpeRatio closedTrades riskFreeRate powQ sqrtQ af =
        JNum.inf (decide (0 < avgDailyReturn closedTrades powQ -
                              dailyRiskFreeRate riskFreeRate powQ))) := by
  refine ⟨?_, ?_, ?_, ?_⟩
  · intro h
    rw [getSharpeRatio, if_pos h]
  · intro hne hstd
    rw [getSharpeRatio, if_neg hne]
    simp [JNum.div, if_neg hstd, JNum.mul, JNum.isNan]
  · intro hne hstd havg
    rw [getSharpeRatio, if_neg hne, hstd, havg, sub_self]
    simp [JNum.div, JNum.mul, JNum.isNan]
  · intro hne hstd havg haf
    have hd : avgDailyReturn closedTrades powQ -
        dailyRiskFreeRate riskFreeRate powQ ≠ 0 := sub_ne_zero.mpr havg
    rw [getSharpeRatio, if_neg hne, hstd]
    simp [JNum.div, JNum.mul, JNum.isNan, hd, haf.ne']
    rw [decide_eq_true haf]
    simp

/-- The closed trade of the C7 counterexample: +10% over one day. -/
def c7Trade : LTrade :=
  { id := "c7", status := "closed", stockName := "Sharpe", symbol := "SHRP",
    entryDate := 0, entryPrice := 100, currentPrice := 110,
    investmentAmount := 100, shares := 1, currentValue := 110,
    stopLossPrice := 90, targetPrice := 110, stopLossPercent := 10,
    takeProfitPercent := 10, squareOffDate := 30 * msPerDay, holdingDays := 1,
    currentPLPercent := 10, currentPLValue := 10, currencySymbol := "$",
    notes := "", exitDate := some msPerDay, exitPrice := some 110,
    exitReason := some "Target Reached", plPercent := some 10,
    plValue := some 10 }

/-- `Math.pow` restricted to the two points the counterexample
evaluates: exponent 1 is the identity, and `1.02 ^ (1/365)` is the
(rounded) value `1.0000542`. -/
def c7Pow : ℚ → ℚ → ℚ := fun x e => if e = 1 then x else 10000542 / 10000000

/-- C7 counterexample: a single closed trade gives zero variance, so
the claim demands a Sharpe ratio of 0; the code's `isNaN` guard does
not catch the division by a zero standard deviation and the function
returns `+Infinity` instead. -/
theorem c7_counterexample :
    getSharpeRatio [c7Trade] (2 / 100) c7Pow (fun _ => 0) (1587 / 100) =
      JNum.inf true ∧ JNum.inf true ≠ JNum.num 0 := by
  constructor
  · rw [getSharpeRatio, if_neg (by simp)]
    have havg : avgDailyReturn [c7Trade] c7Pow = 10 := by
      norm_num [avgDailyReturn, dailyReturnRate, c7Trade, c7Pow, msPerDay]
    have hrf : dailyRiskFreeRate (2 / 100) c7Pow = 542 / 100000 := by
      norm_num [dailyRiskFreeRate, c7Pow]
    rw [havg, hrf]
    norm_num [JNum.div, JNum.mul, JNum.isNan]
  · intro h
    cases h

/-- C7 witness: the amended theorem applied at the empty closed-trade
set. -/
theorem c7_witness :
    getSharpeRatio [] (2 / 100) c7Pow (fun q => q) (1587 / 100) = JNum.num 0 :=
  (c7_sharpe_nan_guard [] (2 / 100) c7Pow (fun q => q) (1587 / 100)).1 rfl

/-- C8 (amended): a Ledger mutation invalidates the cached series
exactly when its storage write succeeds: automatic close, manual
close, delete and import clear both caches via `saveTradestoStorage`
on a successful write (and `clearTradeHistory` clears them
unconditionally, its null-outs preceding the save); with a cleared
cache, `getEquityCurveData` / `getDrawdownChartData` recompute from
the current trade collections instead of returning a stale cache. -/
theorem c8_cache_invalidation
    (l : Ledger) (t0 : LTrade) (reason : String) (ep : ℚ) (now now2 : Int)
    (tradeId notes : String) (doc : ExportDoc) (mode : ImportMode)
    (keepActive : Bool) (freshId : Nat → String) (saveOk : Bool) :
    ((closeTradeAutomatically l t0 reason ep now true).equityCurveData = none ∧
     (closeTradeAutomatically l t0 reason ep now true).drawdownData = none) ∧
    (∀ l2, closeTrade l tradeId ep reason notes now true = (l2, true) →
       l2.equityCurveData = none ∧ l2.drawdownData = none) ∧
    (∀ l2, deleteTrade l tradeId true = (l2, true) →
       l2.equityCurveData = none ∧ l2.drawdownData = none) ∧
    ((clearTradeHistory l saveOk).equityCurveData = none ∧
     (clearTradeHistory l saveOk).drawdownData = none) ∧
    (validateImportData doc = true →
       (importTradesFromJSON l doc mode keepActive now freshId
          true).1.equityCurveData = none ∧
       (importTradesFromJSON l doc mode keepActive now freshId
          true).1.drawdownData = none) ∧
    (∀ l2 : Ledger, l2.equityCurveData = none →
       getEquityCurveData l2 now2 =
         (if l2.closedTrades = [] then [] else computeEquityCurve l2 now2)) ∧
    (∀ l2 : Ledger, l2.drawdownData = none →
       getDrawdownChartData l2 now2 =
         (if l2.closedTrades = [] then [] else
            computeDrawdown (getEquityCurveData l2 now2))) := by
  refine ⟨⟨rfl, rfl⟩, ?_, ?_, ?_, ?_, ?_, ?_⟩
  · intro l2 hclose
    rw [closeTrade] at hclose
    cases hfind : l.activeTrades.find? (fun t => t.id = tradeId) with
    | none => rw [hfind] at hclose; simp at hclose
    | some t =>
        rw [hfind] at hclose
        simp only [Prod.mk.injEq] at hclose
        rw [← hclose.1]
        exact ⟨rfl, rfl⟩
  · intro l2 hdel
    rw [deleteTrade] at hdel
    cases hfind : l.allTrades.find? (fun t => t.id = tradeId) with
    | none => rw [hfind] at hdel; simp at hdel
    | some t =>
        rw [hfind] at hdel
        simp only [Prod.mk.injEq] at hdel
        rw [← hdel.1]
        exact ⟨rfl, rfl⟩
  · cases saveOk <;> exact ⟨rfl, rfl⟩
  · intro hv
    rw [importTradesFromJSON, if_neg (by simp [hv])]
    exact ⟨rfl, rfl⟩
  · intro l2 h
    rw [getEquityCurveData, h]
  · intro l2 h
    rw [getDrawdownChartData, h]

/-- The active trade whose automatic close exercises the C8
counterexample. -/
def c8Active : LTrade :=
  { id := "a1", status := "active", stockName := "Act", symbol := "ACT",
    entryDate := 2 * msPerDay, entryPrice := 50, currentPrice := 40,
    investmentAmount := 500, shares := 10, currentValue := 400,
    stopLossPrice := 45, targetPrice := 60, stopLossPercent := 10,
    takeProfitPercent := 20, squareOffDate := 40 * msPerDay, holdingDays := 3,
    currentPLPercent := -20, currentPLValue := -100, currencySymbol := "$",
    notes := "" }

/-- The pre-mutation Ledger of the C8 counterexample: one closed and
one active trade, caches not yet filled. -/
def c8Base : Ledger :=
  { allTrades := [c8Active, c7Trade], activeTrades := [c8Active],
    closedTrades := [c7Trade] }

/-- The same Ledger after `getEquityCurveData`/`getDrawdownChartData`
have run and filled both caches. -/
def c8Cached : Ledger :=
  { c8Base with
    equityCurveData := some (computeEquityCurve c8Base 5),
    drawdownData := some (computeDrawdown (computeEquityCurve c8Base 5)) }

/-- C8 counterexample: when the storage write fails, the automatic
close still moves the trade to the closed set (the collections are
mutated before the save), but the cache null-outs inside the `try`
are skipped — the subsequent `getEquityCurveData` call returns the
stale pre-mutation series (whose last point is still the `isActive`
point of the now-closed trade) instead of recomputing from the
current collections, contradicting the claim. -/
theorem c8_counterexample :
    (closeTradeAutomatically c8Cached c8Active "Stop Loss Hit" 40 5
        false).closedTrades.length = 2 ∧
    c8Cached.closedTrades.length = 1 ∧
    getEquityCurveData
      (closeTradeAutomatically c8Cached c8Active "Stop Loss Hit" 40 5 false) 5 =
      computeEquityCurve c8Base 5 ∧
    (computeEquityCurve c8Base 5).map (fun p => p.isActive) =
      [false, false, true] ∧
    (computeEquityCurve
      (closeTradeAutomatically c8Cached c8Active "Stop Loss Hit" 40 5 false)
      5).map (fun p => p.isActive) = [false, false, false] := by
  refine ⟨by decide, rfl, rfl, by decide, by decide⟩

/-- C8 witness: the amended theorem applied to the empty Ledger —
clearing history leaves the caches invalidated regardless of the
write outcome, and the getter recomputes. -/
theorem c8_witness :
    (clearTradeHistory emptyLedger false).equityCurveData = none ∧
    getEquityCurveData emptyLedger 0 = [] := by
  have h := c8_cache_invalidation emptyLedger c4BadTrade "r" 1 0 0 "x" ""
    c4BadDoc ImportMode.merge true (fun _ => "f") false
  refine ⟨h.2.2.2.1.1, ?_⟩
  have h6 := h.2.2.2.2.2.1 emptyLedger rfl
  simpa [emptyLedger] using h6

/-- The weekly entry condition as the specification words it: when the
filter is enabled and a preceding weekly period exists, the weekly
oscillator of the period containing `i` exceeds that of the
immediately preceding period (vacuously true otherwise). -/
def weeklyFilterSpec (inp : BTInput) (params : BTParams) (i : Nat) : Prop :=
  params.enable7DayDTI = true →
    ∀ p, findPeriodIdx inp.sevenDayData i = some p → 1 ≤ p →
      ∃ prev cur, inp.sevenDayDTI.get? (p - 1) = some prev ∧
        inp.sevenDayDTI.get? p = some cur ∧ prev < cur

/-- Under the data-model invariants (the daily projection of the
weekly oscillator agrees with the period value, and each period has
an oscillator value), the code's 7-day condition coincides with the
specification's weekly condition. -/
theorem sevenDayCond_iff_weeklyFilterSpec
    (inp : BTInput) (params : BTParams) (i : Nat)
    (hw : ∀ p, findPeriodIdx inp.sevenDayData i = some p →
          inp.daily7DayDTI.get? i = inp.sevenDayDTI.get? p)
    (hlen7 : inp.sevenDayDTI.length = inp.sevenDayData.length) :
    (sevenDayConditionMet inp params i = true ↔ weeklyFilterSpec inp params i) := by
  by_cases he : params.enable7DayDTI = true
  · cases hfp : findPeriodIdx inp.sevenDayData i with
    | none =>
        have hprev : previous7DayDTI inp i = none := by
          rw [previous7DayDTI, hfp]
        rw [sevenDayConditionMet, if_pos he, hprev]
        constructor
        · intro _ _ p hp
          exact Option.noConfusion (hfp ▸ hp)
        · intro _
          rfl
    | some p =>
        have hplt : p < inp.sevenDayData.length := by
          rw [findPeriodIdx] at hfp
          exact (List.findIdx?_eq_some_iff_findIdx_eq.mp hfp).1
        have hprev : previous7DayDTI inp i =
            if 1 ≤ p then some (inp.sevenDayDTI.get? (p - 1)) else none := by
          rw [previous7DayDTI, hfp]
        rw [sevenDayConditionMet, if_pos he, hprev]
        by_cases h1 : 1 ≤ p
        · rw [if_pos h1]
          have hcur : inp.daily7DayDTI.get? i = inp.sevenDayDTI.get? p := hw p hfp
          obtain ⟨cur, hcur3⟩ : ∃ cur, inp.sevenDayDTI.get? p = some cur := by
            have hb : p < inp.sevenDayDTI.length := by omega
            exact ⟨_, by rw [List.get?_eq_getElem?]; exact List.getElem?_eq_getElem hb⟩
          obtain ⟨prev, hprev3⟩ : ∃ prev, inp.sevenDayDTI.get? (p - 1) = some prev := by
            have hb : p - 1 < inp.sevenDayDTI.length := by omega
            exact ⟨_, by rw [List.get?_eq_getElem?]; exact List.getElem?_eq_getElem hb⟩
          rw [hcur, hcur3, hprev3]
          show (decide (prev < cur) = true) ↔ _
          rw [decide_eq_true_eq]
          constructor
          · intro hlt _ p' hp' _
            have hpp : p = p' := Option.some.inj (hfp ▸ hp')
            subst hpp
            exact ⟨prev, cur, hprev3, hcur3, hlt⟩
          · intro hspec
            obtain ⟨prev', cur', hprev', hcur', hlt⟩ := hspec he p hfp h1
            rw [hprev3] at hprev'
            rw [hcur3] at hcur'
            cases hprev'
            cases hcur'
            exact hlt
        · rw [if_neg h1]
          constructor
          · intro _ _ p' hp' h1'
            have hpp : p = p' := Option.some.inj (hfp ▸ hp')
            omega
          · intro _
            rfl
  · rw [sevenDayConditionMet, if_neg he]
    constructor
    · intro _ h
      exact absurd h he
    · intro _
      rfl

/-- C2: at a step with no open trade, the Backtest Engine opens a
trade exactly when the daily oscillator is below the entry threshold
and improving, the weekly condition holds (vacuously when the filter
is off or no preceding period exists), no trade has ever completed or
the previous one has completed, and the step's date is on or after
the warm-up boundary; the opened trade carries
`entryPrice = price[i]`, zero holding days and zero P/L. -/
theorem c2_entry_conditions
    (inp : BTInput) (params : BTParams) (earliest : Int) (s : BTState) (i : Nat)
    (hs : s.activeTrade = none)
    (hw : ∀ p, findPeriodIdx inp.sevenDayData i = some p →
          inp.daily7DayDTI.get? i = inp.sevenDayDTI.get? p)
    (hlen7 : inp.sevenDayDTI.length = inp.sevenDayData.length) :
    ((btStep inp params earliest s i).activeTrade.isSome = true ↔
      (inp.dti.getD i 0 < params.entryThreshold ∧
       inp.dti.getD (i - 1) 0 < inp.dti.getD i 0 ∧
       weeklyFilterSpec inp params i ∧
       (s.completedTrades = [] ∨ s.previousTradeCompleted = true) ∧
       earliest ≤ inp.dates.getD i 0)) ∧
    (∀ t, (btStep inp params earliest s i).activeTrade = some t →
      t.entryDate = inp.dates.getD i 0 ∧ t.entryPrice = inp.prices.getD i 0 ∧
      t.holdingDays = 0 ∧ t.currentPlPercent = 0) := by
  have hiff := sevenDayCond_iff_weeklyFilterSpec inp params i hw hlen7
  constructor
  · rw [btStep, hs]
    simp only []
    split_ifs with hcond
    · simp only [Option.isSome_some, true_iff]
      obtain ⟨h1, h2, h3, h4, h5⟩ := hcond
      exact ⟨h1, h2, hiff.mp h3, h4, h5⟩
    · rw [hs]
      simp only [Option.isSome_none, Bool.false_eq_true, false_iff]
      intro hcl
      exact hcond ⟨hcl.1, hcl.2.1, hiff.mpr hcl.2.2.1, hcl.2.2.2.1, hcl.2.2.2.2⟩
  · intro t ht
    rw [btStep, hs] at ht
    simp only [] at ht
    split_ifs at ht with hcond
    · simp only [Option.some.injEq] at ht
      rw [← ht]
      exact ⟨rfl, rfl, rfl, rfl⟩
    · rw [hs] at ht
      cases ht

/-- Non-decreasing entry order between two simulated trades. -/
def entryLe (a b : SimTrade) : Prop := a.entryDate ≤ b.entryDate

/-- Disjoint date ranges: the first trade (when closed) exits
strictly before the second one enters. -/
def tradesDisjoint (a b : SimTrade) : Prop :=
  ∀ d, a.exitDate = some d → d < b.entryDate

/-- The loop invariant of the backtest pass, bounded by the date of
the last processed step: completed trades are closed no later than
`bound` and after their entries, all produced trades are pairwise
disjoint and in entry order, and the open trade (if any) entered no
later than `bound` and has no exit fields. -/
def btStateInv (s : BTState) (bound : Int) : Prop :=
  (∀ t ∈ s.completedTrades, t.exitReason.isSome = true ∧
     ∃ d, t.exitDate = some d ∧ t.entryDate ≤ d ∧ d ≤ bound) ∧
  List.Pairwise tradesDisjoint (s.completedTrades ++ s.activeTrade.toList) ∧
  List.Pairwise entryLe (s.completedTrades ++ s.activeTrade.toList) ∧
  (∀ t, s.activeTrade = some t →
     t.entryDate ≤ bound ∧ t.exitDate = none ∧ t.exitReason = none)

/-- The invariant is monotone in the bound. -/
theorem btStateInv_mono {s : BTState} {b b2 : Int}
    (h : btStateInv s b) (hb : b ≤ b2) : btStateInv s b2 := by
  obtain ⟨h1, h2, h3, h4⟩ := h
  refine ⟨?_, h2, h3, ?_⟩
  · intro t ht
    obtain ⟨hr, d, hd, hed, hdb⟩ := h1 t ht
    exact ⟨hr, d, hd, hed, le_trans hdb hb⟩
  · intro t ht
    obtain ⟨he, hx, hrr⟩ := h4 t ht
    exact ⟨le_trans he hb, hx, hrr⟩

/-- Appending one element to a pairwise list. -/
theorem pairwise_append_one {α : Type} {R : α → α → Prop} {l : List α} {x : α}
    (hl : List.Pairwise R l) (hx : ∀ a ∈ l, R a x) :
    List.Pairwise R (l ++ [x]) := by
  rw [List.pairwise_append]
  refine ⟨hl, List.pairwise_singleton R x, ?_⟩
  intro a ha b hb
  rw [List.mem_singleton] at hb
  subst hb
  exact hx a ha

/-- One backtest step preserves the invariant, with the bound moving
to the step's (strictly later) date. -/
theorem btStep_inv (inp : BTInput) (params : BTParams) (earliest : Int)
    (s : BTState) (i : Nat) (bound : Int)
    (hinv : btStateInv s bound) (hlt : bound < inp.dates.getD i 0) :
    btStateInv (btStep inp params earliest s i) (inp.dates.getD i 0) := by
  obtain ⟨h1, h2, h3, h4⟩ := hinv
  rw [btStep]
  cases hact : s.activeTrade with
  | none =>
      rw [hact] at h2 h3
      simp only [Option.toList_none, List.append_nil] at h2 h3
      simp only []
      split_ifs with hcond
      · refine ⟨?_, ?_, ?_, ?_⟩
        · intro t ht
          obtain ⟨hr, d, hd, hed, hdb⟩ := h1 t ht
          exact ⟨hr, d, hd, hed, le_of_lt (lt_of_le_of_lt hdb hlt)⟩
        · simp only [Option.toList_some]
          apply pairwise_append_one h2
          intro a ha
          intro d hd
          obtain ⟨_, d2, hd2, _, hdb2⟩ := h1 a ha
          rw [hd2] at hd
          cases hd
          exact lt_of_le_of_lt hdb2 hlt
        · simp only [Option.toList_some]
          apply pairwise_append_one h3
          intro a ha
          obtain ⟨_, d2, hd2, hed2, hdb2⟩ := h1 a ha
          exact le_of_lt (lt_of_le_of_lt (le_trans hed2 hdb2) hlt)
        · intro t ht
          simp only [Option.some.injEq] at ht
          rw [← ht]
          exact ⟨le_refl _, rfl, rfl⟩
      · exact btStateInv_mono ⟨h1, by rw [hact]; simpa using h2,
          by rw [hact]; simpa using h3,
          fun t ht => absurd (hact ▸ ht) (by simp)⟩ (le_of_lt hlt)
  | some t0 =>
      rw [hact] at h2 h3
      simp only [Option.toList_some] at h2 h3
      obtain ⟨he0, hx0, hr0⟩ := h4 t0 hact
      have hpair2 := List.pairwise_append.mp h2
      have hpair3 := List.pairwise_append.mp h3
      have hdisj0 : ∀ a ∈ s.completedTrades, tradesDisjoint a t0 := by
        intro a ha
        exact hpair2.2.2 a ha t0 (List.mem_singleton_self _)
      have hentry0 : ∀ a ∈ s.completedTrades, entryLe a t0 := by
        intro a ha
        exact hpair3.2.2 a ha t0 (List.mem_singleton_self _)
      have hclosed : ∀ tc : SimTrade, tc.entryDate = t0.entryDate →
          tc.exitDate = some (inp.dates.getD i 0) → tc.exitReason.isSome = true →
          btStateInv
            { completedTrades := s.completedTrades ++ [tc],
              activeTrade := none, previousTradeCompleted := true }
            (inp.dates.getD i 0) := by
        intro tc htce htcx htcr
        refine ⟨?_, ?_, ?_, ?_⟩
        · intro t ht
          rcases List.mem_append.mp ht with h | h
          · obtain ⟨hr, d, hd, hed, hdb⟩ := h1 t h
            exact ⟨hr, d, hd, hed, le_of_lt (lt_of_le_of_lt hdb hlt)⟩
          · rw [List.mem_singleton] at h
            subst h
            refine ⟨htcr, inp.dates.getD i 0, htcx, ?_, le_refl _⟩
            rw [htce]
            exact le_of_lt (lt_of_le_of_lt he0 hlt)
        · simp only [Option.toList_none, List.append_nil]
          apply pairwise_append_one hpair2.1
          intro a ha d hd
          rw [htce]
          exact hdisj0 a ha d hd
        · simp only [Option.toList_none, List.append_nil]
          apply pairwise_append_one hpair3.1
          intro a ha
          show a.entryDate ≤ tc.entryDate
          rw [htce]
          exact hentry0 a ha
        · intro t ht
          cases ht
      simp only []
      split_ifs with hc1 hc2 hc3
      · exact hclosed _ rfl rfl rfl
      · exact hclosed _ rfl rfl rfl
      · exact hclosed _ rfl rfl rfl
      · refine ⟨?_, ?_, ?_, ?_⟩
        · intro t ht
          obtain ⟨hr, d, hd, hed, hdb⟩ := h1 t ht
          exact ⟨hr, d, hd, hed, le_of_lt (lt_of_le_of_lt hdb hlt)⟩
        · simp only [Option.toList_some]
          apply pairwise_append_one hpair2.1
          intro a ha d hd
          exact hdisj0 a ha d hd
        · simp only [Option.toList_some]
          apply pairwise_append_one hpair3.1
          intro a ha
          exact hentry0 a ha
        · intro t ht
          simp only [Option.some.injEq] at ht
          rw [← ht]
          exact ⟨le_of_lt (lt_of_le_of_lt he0 hlt), hx0, hr0⟩

/-- Strictly increasing date sequences are increasing position-wise. -/
theorem dates_getD_mono {dates : List Int}
    (hmono : List.Pairwise (fun a b => a < b) dates) {a b : Nat}
    (hab : a < b) (hb : b < dates.length) :
    dates.getD a 0 < dates.getD b 0 := by
  have ha : a < dates.length := lt_trans hab hb
  rw [List.getD_eq_getElem?_getD, List.getElem?_eq_getElem ha,
      List.getD_eq_getElem?_getD, List.getElem?_eq_getElem hb]
  exact List.pairwise_iff_getElem.mp hmono a b ha hb hab

/-- The backtest loop over consecutive indices preserves the
invariant, the bound following the last processed date. -/
theorem btRun_inv (inp : BTInput) (params : BTParams) (earliest : Int)
    (hmono : List.Pairwise (fun a b => a < b) inp.dates) :
    ∀ (m i0 : Nat) (s : BTState), btStateInv s (inp.dates.getD i0 0) →
      i0 + m < inp.dates.length →
      btStateInv (btRun inp params earliest s (List.range' (i0 + 1) m))
        (inp.dates.getD (i0 + m) 0) := by
  intro m
  induction m with
  | zero =>
      intro i0 s hinv _
      simpa [btRun] using hinv
  | succ m ih =>
      intro i0 s hinv hbound
      rw [List.range'_succ]
      have hlt : inp.dates.getD i0 0 < inp.dates.getD (i0 + 1) 0 :=
        dates_getD_mono hmono (by omega) (by omega)
      have hstep := btStep_inv inp params earliest s (i0 + 1) _ hinv hlt
      have hrec := ih (i0 + 1) (btStep inp params earliest s (i0 + 1)) hstep
        (by omega)
      rw [btRun, List.foldl_cons]
      have hidx : i0 + 1 + m = i0 + (m + 1) := by omega
      rw [hidx] at hrec
      exact hrec

/-- C3: for every valid input series (strictly increasing dates), the
trades of `backtestWithActiveDetection` — completed plus the optional
active one — have exit at or after entry, appear in non-decreasing
entry-date order, are pairwise non-overlapping (each closed trade
exits strictly before the next one enters), and only the single
optional active trade is open (no exit fields). -/
theorem c3_no_overlapping_trades (inp : BTInput) (params : BTParams)
    (addSixMonths : Int → Int) (r : BTResult)
    (hmono : List.Pairwise (fun a b => a < b) inp.dates)
    (hr : backtestWithActiveDetection inp params addSixMonths = r) :
    (∀ t ∈ r.completedTrades, t.exitReason.isSome = true ∧
       ∃ d, t.exitDate = some d ∧ t.entryDate ≤ d) ∧
    List.Pairwise tradesDisjoint (r.completedTrades ++ r.activeTrade.toList) ∧
    List.Pairwise entryLe (r.completedTrades ++ r.activeTrade.toList) ∧
    (∀ t, r.activeTrade = some t → t.exitDate = none ∧ t.exitReason = none) := by
  rw [backtestWithActiveDetection] at hr
  by_cases hval : (inp.dates.length ≠ inp.prices.length ∨
      inp.dates.length ≠ inp.dti.length)
  · rw [if_pos hval] at hr
    rw [← hr]
    refine ⟨?_, ?_, ?_, ?_⟩
    · intro t ht
      cases ht
    · simp
    · simp
    · intro t ht
      cases ht
  · rw [if_neg hval] at hr
    push_neg at hval
    have hlen : inp.dates.length = inp.dti.length := hval.2
    by_cases hn : inp.dti.length = 0
    · rw [hn] at hr
      simp only [List.range'] at hr
      rw [← hr]
      refine ⟨?_, ?_, ?_, ?_⟩
      · intro t ht
        cases ht
      · simp [btRun]
      · simp [btRun]
      · intro t ht
        cases ht
    · have hinit : btStateInv
          { completedTrades := [], activeTrade := none,
            previousTradeCompleted := false } (inp.dates.getD 0 0) := by
        refine ⟨?_, ?_, ?_, ?_⟩
        · intro t ht
          cases ht
        · simp
        · simp
        · intro t ht
          cases ht
      have hfin := btRun_inv inp params
        (addSixMonths (inp.dates.getD 0 0)) hmono (inp.dti.length - 1) 0 _
        hinit (by omega)
      rw [show (0 : Nat) + 1 = 1 from rfl] at hfin
      obtain ⟨h1, h2, h3, h4⟩ := hfin
      rw [← hr]
      refine ⟨?_, h2, h3, ?_⟩
      · intro t ht
        obtain ⟨hrr, d, hd, hed, _⟩ := h1 t ht
        exact ⟨hrr, d, hd, hed⟩
      · intro t ht
        obtain ⟨_, hx, hrr⟩ := h4 t ht
        exact ⟨hx, hrr⟩

/-- Input series for the C3 witness: three strictly increasing days.
The oscillator dips below the threshold and improves at step 1, so a
trade opens and is taken profit at step 2. -/
def c3Input : BTInput :=
  { dates := [0, 190 * msPerDay, 191 * msPerDay],
    prices := [100, 50, 60], dti := [-50, -45, -30],
    daily7DayDTI := [], sevenDayData := [], sevenDayDTI := [] }

/-- C3 witness: the theorem applied to the concrete series. -/
theorem c3_witness :
    List.Pairwise tradesDisjoint
      ((backtestWithActiveDetection c3Input c6Params
          (fun d => d + 183 * msPerDay)).completedTrades ++
        (backtestWithActiveDetection c3Input c6Params
          (fun d => d + 183 * msPerDay)).activeTrade.toList) :=
  (c3_no_overlapping_trades c3Input c6Params (fun d => d + 183 * msPerDay) _
    (by norm_num [c3Input, msPerDay]) rfl).2.1

/-- `prepareTrade` never changes a trade's id. -/
theorem prepareTrade_id (now : Int) (t : LTrade) :
    (prepareTrade now t).id = t.id := by
  rw [prepareTrade]
  split_ifs <;> rfl

/-- The ids of a prepared list are the ids of the original list. -/
theorem map_id_map_prepareTrade (now : Int) (xs : List LTrade) :
    (xs.map (prepareTrade now)).map (fun t => t.id) = xs.map (fun t => t.id) := by
  rw [List.map_map]
  exact List.map_congr_left (fun t _ => prepareTrade_id now t)

/-- Setting the element right after a prefix. -/
theorem set_append_length {α : Type} (l1 : List α) (x : α) (l2 : List α) (v : α) :
    (l1 ++ x :: l2).set l1.length v = l1 ++ v :: l2 := by
  induction l1 with
  | nil => rfl
  | cons a l1 ih => simp [List.set, ih]

/-- Overwriting a position with the value it already holds is the
identity. -/
theorem set_self_of_getElem? {α : Type} {l : List α} {j : Nat} {v : α}
    (h : l[j]? = some v) : l.set j v = l := by
  induction l generalizing j with
  | nil => simp at h
  | cons a l ih =>
      cases j with
      | zero =>
          simp only [List.getElem?_cons_zero, Option.some.injEq] at h
          rw [h]
          rfl
      | succ j =>
          simp only [List.getElem?_cons_succ] at h
          simp [List.set, ih h]

/-- Merge-mode fold, first import: over a list whose ids are fresh in
the prefix and unique overall, each document trade overwrites its own
original slot, so the fold maps `prepareTrade` over the list and
counts every trade as updated. -/
theorem mergeFold_replaces (now : Int) (existingIds : List String) :
    ∀ (suf pre : List LTrade) (res : ImportResults),
      (∀ t ∈ suf, t.id ∈ existingIds) →
      ((pre ++ suf).map (fun t => t.id)).Nodup →
      suf.foldl (mergeOne existingIds now) (pre.map (prepareTrade now) ++ suf, res) =
        ((pre ++ suf).map (prepareTrade now),
         { res with updated := res.updated + suf.length }) := by
  intro suf
  induction suf with
  | nil =>
      intro pre res _ _
      simp
  | cons t suf2 ih =>
      intro pre res hmem hnodup
      rw [List.foldl_cons]
      have hstep : mergeOne existingIds now (pre.map (prepareTrade now) ++ t :: suf2, res) t =
          ((pre ++ [t]).map (prepareTrade now) ++ suf2,
           { res with updated := res.updated + 1 }) := by
        rw [mergeOne]
        simp only [prepareTrade_id]
        rw [if_pos (hmem t (List.mem_cons_self t suf2))]
        have hfind : (pre.map (prepareTrade now) ++ t :: suf2).findIdx?
            (fun x => x.id = t.id) = some pre.length := by
          rw [List.findIdx?_append]
          have hnone : (pre.map (prepareTrade now)).findIdx?
              (fun x => x.id = t.id) = none := by
            rw [List.findIdx?_eq_none_iff]
            intro x hx
            rw [List.mem_map] at hx
            obtain ⟨y, hy, hxy⟩ := hx
            rw [← hxy, prepareTrade_id, decide_eq_false_iff_not]
            intro hid
            have : t.id ∈ pre.map (fun t => t.id) := by
              rw [List.mem_map]
              exact ⟨y, hy, hid⟩
            rw [List.map_append, List.nodup_append] at hnodup
            exact hnodup.2.2 this (by simp)
          rw [hnone]
          rw [List.findIdx?_cons]
          simp
        simp only [hfind]
        rw [show pre.length = (pre.map (prepareTrade now)).length by simp]
        rw [set_append_length]
        simp [List.map_append]
      rw [hstep]
      have hres := ih (pre ++ [t]) { res with updated := res.updated + 1 }
        (fun u hu => hmem u (List.mem_cons_of_mem t hu))
        (by simpa using hnodup)
      rw [hres]
      rw [show (pre ++ [t]) ++ suf2 = pre ++ t :: suf2 by simp]
      congr 1
      simp
      omega

/-- Merge-mode fold, repeat import: when every document trade's
prepared form already sits at its (unique) id slot of the
accumulator, every step overwrites a slot with the value it already
holds, so the ledger list is unchanged and every trade counts as
updated. -/
theorem mergeFold_self (now : Int) (existingIds : List String) :
    ∀ (suf : List LTrade) (acc : List LTrade) (res : ImportResults),
      (∀ t ∈ suf, t.id ∈ existingIds) →
      (∀ t ∈ suf, ∃ j, acc.findIdx? (fun x => x.id = t.id) = some j ∧
         acc[j]? = some (prepareTrade now t)) →
      suf.foldl (mergeOne existingIds now) (acc, res) =
        (acc, { res with updated := res.updated + suf.length }) := by
  intro suf
  induction suf with
  | nil =>
      intro acc res _ _
      simp
  | cons t suf2 ih =>
      intro acc res hmem hfix
      rw [List.foldl_cons]
      obtain ⟨j, hj, hjv⟩ := hfix t (List.mem_cons_self t suf2)
      have hstep : mergeOne existingIds now (acc, res) t =
          (acc, { res with updated := res.updated + 1 }) := by
        rw [mergeOne]
        simp only [prepareTrade_id]
        rw [if_pos (hmem t (List.mem_cons_self t suf2))]
        simp only [hj]
        rw [set_self_of_getElem? hjv]
      rw [hstep]
      rw [ih acc { res with updated := res.updated + 1 }
        (fun u hu => hmem u (List.mem_cons_of_mem t hu))
        (fun u hu => hfix u (List.mem_cons_of_mem t hu))]
      congr 1
      simp
      omega

/-- C9: merge-importing a Ledger's own export twice leaves the
source-of-truth trade collection (and equally the caches) unchanged
after the second import, the active/closed partition unchanged up to
the order of the derived arrays, and the second import reports every
trade as updated and none added. -/
theorem c9_import_idempotent
    (l0 : Ledger) (now : Int) (freshId : Nat → String)
    (l1 l2 : Ledger) (res1 res2 : ImportResults)
    (hnodup : (l0.allTrades.map (fun t => t.id)).Nodup)
    (hne : l0.allTrades ≠ [])
    (h1 : importTradesFromJSON l0 (exportAllTradesJSON l0 now) ImportMode.merge
            true now freshId true = (l1, res1))
    (h2 : importTradesFromJSON l1 (exportAllTradesJSON l0 now) ImportMode.merge
            true now freshId true = (l2, res2)) :
    l2.allTrades = l1.allTrades ∧
    l2.equityCurveData = l1.equityCurveData ∧
    l2.drawdownData = l1.drawdownData ∧
    l2.activeTrades.Perm l1.activeTrades ∧
    l2.closedTrades.Perm l1.closedTrades ∧
    res2.updated = (exportAllTradesJSON l0 now).trades.length ∧
    res2.added = 0 := by
  have hval : ¬ ((!validateImportData (exportAllTradesJSON l0 now)) = true) := by
    simp only [validateImportData, exportAllTradesJSON, Bool.not_not]
    rw [List.isEmpty_iff]
    exact hne
  have hproc1 : importProcess l0 (exportAllTradesJSON l0 now) ImportMode.merge
      true now freshId =
      (l0.allTrades.map (prepareTrade now),
       ({ total := l0.allTrades.length,
          updated := l0.allTrades.length } : ImportResults)) := by
    show l0.allTrades.foldl (mergeOne (l0.allTrades.map (fun t => t.id)) now)
        (l0.allTrades, ({ total := l0.allTrades.length } : ImportResults)) = _
    have hrep := mergeFold_replaces now (l0.allTrades.map (fun t => t.id))
      l0.allTrades [] ({ total := l0.allTrades.length } : ImportResults)
      (fun t ht => List.mem_map_of_mem _ ht) (by simpa using hnodup)
    simpa using hrep
  have himp1 : importTradesFromJSON l0 (exportAllTradesJSON l0 now)
      ImportMode.merge true now freshId true =
      ({ l0 with
          allTrades := List.insertionSort ledgerAllLE
            (l0.allTrades.map (prepareTrade now)),
          activeTrades := (l0.allTrades.map (prepareTrade now)).filter
            (fun t => t.status = "active"),
          closedTrades := (l0.allTrades.map (prepareTrade now)).filter
            (fun t => !(t.status = "active")),
          equityCurveData := none, drawdownData := none },
       ({ total := l0.allTrades.length,
          updated := l0.allTrades.length } : ImportResults)) := by
    rw [importTradesFromJSON, if_neg hval, hproc1]
    rfl
  obtain ⟨hl1, hres1⟩ := Prod.mk.injEq .. |>.mp (himp1.symm.trans h1)
  have hperm : (List.insertionSort ledgerAllLE
      (l0.allTrades.map (prepareTrade now))).Perm
      (l0.allTrades.map (prepareTrade now)) :=
    List.perm_insertionSort ledgerAllLE (l0.allTrades.map (prepareTrade now))
  have hl1all : l1.allTrades = List.insertionSort ledgerAllLE
      (l0.allTrades.map (prepareTrade now)) := by
    rw [← hl1]
  have hidsS : ((List.insertionSort ledgerAllLE
      (l0.allTrades.map (prepareTrade now))).map (fun t => t.id)).Nodup := by
    have hp2 := hperm.map (fun t => t.id)
    rw [map_id_map_prepareTrade] at hp2
    exact hp2.nodup_iff.mpr hnodup
  have hproc2 : importProcess l1 (exportAllTradesJSON l0 now) ImportMode.merge
      true now freshId =
      (l1.allTrades,
       ({ total := l0.allTrades.length,
          updated := l0.allTrades.length } : ImportResults)) := by
    show l0.allTrades.foldl (mergeOne (l1.allTrades.map (fun t => t.id)) now)
        (l1.allTrades, ({ total := l0.allTrades.length } : ImportResults)) = _
    have hself := mergeFold_self now (l1.allTrades.map (fun t => t.id))
      l0.allTrades l1.allTrades ({ total := l0.allTrades.length } : ImportResults)
      (fun t ht => by
        rw [hl1all]
        have hPts : prepareTrade now t ∈ List.insertionSort ledgerAllLE
            (l0.allTrades.map (prepareTrade now)) :=
          hperm.mem_iff.mpr (List.mem_map_of_mem _ ht)
        rw [List.mem_map]
        exact ⟨prepareTrade now t, hPts, prepareTrade_id now t⟩)
      (fun t ht => by
        rw [hl1all]
        have hPts : prepareTrade now t ∈ List.insertionSort ledgerAllLE
            (l0.allTrades.map (prepareTrade now)) :=
          hperm.mem_iff.mpr (List.mem_map_of_mem _ ht)
        have hex : ∃ x, x ∈ List.insertionSort ledgerAllLE
            (l0.allTrades.map (prepareTrade now)) ∧
            (fun x => decide (x.id = t.id)) x = true :=
          ⟨prepareTrade now t, hPts, by simp [prepareTrade_id]⟩
        have hfind := List.findIdx?_eq_some_of_exists hex
        refine ⟨_, hfind, ?_⟩
        have hmatch := List.findIdx?_of_eq_some hfind
        cases hS : (List.insertionSort ledgerAllLE
            (l0.allTrades.map (prepareTrade now)))[(List.insertionSort ledgerAllLE
            (l0.allTrades.map (prepareTrade now))).findIdx
            (fun x => decide (x.id = t.id))]? with
        | none =>
            rw [hS] at hmatch
            exact absurd hmatch (by simp)
        | some a =>
            rw [hS] at hmatch
            have haid : a.id = t.id := by simpa using hmatch
            have haS := List.getElem?_mem hS
            have ha : a = prepareTrade now t :=
              List.inj_on_of_nodup_map hidsS haS hPts
                (by rw [haid, prepareTrade_id])
            rw [ha])
    simpa using hself
  have himp2 : importTradesFromJSON l1 (exportAllTradesJSON l0 now)
      ImportMode.merge true now freshId true =
      ({ l1 with
          allTrades := List.insertionSort ledgerAllLE l1.allTrades,
          activeTrades := l1.allTrades.filter (fun t => t.status = "active"),
          closedTrades := l1.allTrades.filter (fun t => !(t.status = "active")),
          equityCurveData := none, drawdownData := none },
       ({ total := l0.allTrades.length,
          updated := l0.allTrades.length } : ImportResults)) := by
    rw [importTradesFromJSON, if_neg hval, hproc2]
    rfl
  obtain ⟨hl2, hres2⟩ := Prod.mk.injEq .. |>.mp (himp2.symm.trans h2)
  have hsortid : List.insertionSort ledgerAllLE l1.allTrades = l1.allTrades := by
    rw [hl1all]
    exact (List.sorted_insertionSort ledgerAllLE
      (l0.allTrades.map (prepareTrade now))).insertionSort_eq
  have hl2all : l2.allTrades = List.insertionSort ledgerAllLE l1.allTrades := by
    rw [← hl2]
  have hl2act : l2.activeTrades =
      l1.allTrades.filter (fun t => t.status = "active") := by
    rw [← hl2]
  have hl2cls : l2.closedTrades =
      l1.allTrades.filter (fun t => !(t.status = "active")) := by
    rw [← hl2]
  have hl1act : l1.activeTrades =
      (l0.allTrades.map (prepareTrade now)).filter
        (fun t => t.status = "active") := by
    rw [← hl1]
  have hl1cls : l1.closedTrades =
      (l0.allTrades.map (prepareTrade now)).filter
        (fun t => !(t.status = "active")) := by
    rw [← hl1]
  refine ⟨?_, ?_, ?_, ?_, ?_, ?_, ?_⟩
  · rw [hl2all, hsortid]
  · rw [← hl2, ← hl1]
  · rw [← hl2, ← hl1]
  · rw [hl2act, hl1act, hl1all]
    exact hperm.filter _
  · rw [hl2cls, hl1cls, hl1all]
    exact hperm.filter _
  · rw [← hres2]
    rfl
  · rw [← hres2]

/-- A one-trade Ledger for the C9 witness. -/
def c9Ledger : Ledger :=
  { allTrades := [c7Trade], activeTrades := [], closedTrades := [c7Trade] }

/-- C9 witness: the theorem applied to the concrete one-trade Ledger;
the second merge-import of its own export adds nothing. -/
theorem c9_witness :
    (importTradesFromJSON
      (importTradesFromJSON c9Ledger (exportAllTradesJSON c9Ledger 5)
        ImportMode.merge true 5 (fun _ => "f") true).1
      (exportAllTradesJSON c9Ledger 5) ImportMode.merge true 5
      (fun _ => "f") true).2.added = 0 :=
  (c9_import_idempotent c9Ledger 5 (fun _ => "f") _ _ _ _
    (by decide) (by decide) rfl rfl).2.2.2.2.2.2

/-- Input series for the C2 witness: the oscillator dips below the
threshold at step 0 and improves at step 1, past the warm-up. -/
def c2Input : BTInput :=
  { dates := [0, 190 * msPerDay], prices := [100, 50], dti := [-50, -45],
    daily7DayDTI := [], sevenDayData := [], sevenDayDTI := [] }

/-- C2 witness: the theorem applied to the concrete series — all
entry conditions hold at step 1, so a trade opens. -/
theorem c2_witness :
    (btStep c2Input c6Params (183 * msPerDay)
      { completedTrades := [], activeTrade := none,
        previousTradeCompleted := false } 1).activeTrade.isSome = true := by
  have h := c2_entry_conditions c2Input c6Params (183 * msPerDay)
    { completedTrades := [], activeTrade := none, previousTradeCompleted := false }
    1 rfl (fun p hp => by simp [findPeriodIdx, c2Input] at hp) rfl
  apply h.1.mpr
  refine ⟨by norm_num [c2Input, c6Params], by norm_num [c2Input], ?_,
    Or.inl rfl, by norm_num [c2Input, msPerDay]⟩
  intro _ p hp
  simp [findPeriodIdx, c2Input] at hp
